import Mathlib

/-!
Shallow embedding of the inventory-consistency core of the order-processing
backend (Go, pgx/PostgreSQL).  The database is modelled as an explicit state
record (`DB`); every repository method becomes a function from `DB` to a
result together with the committed state.  Transactions are modelled by
returning the pre-call state on a rolled-back error; operations that commit
through the shared pool in their own transaction (as
`productRepo.UpdateWarehouseStock` does) thread the committed state through
even when the caller's surrounding transaction aborts.

Monetary amounts (Go `float64`) are modelled as exact rationals; none of the
verified claims depends on floating-point rounding.  Surrogate ids that no
query reads (`warehouse_stocks.id`, timestamps on products) are omitted;
`created_at`/`completed_at` timestamps are modelled as `Option Nat` ticks
with the current time `DB.now`.
-/

namespace OrderApp

/-- Row of `products` as used by the warehouse-aware repository
(`internal/repository/product_repository.go`): id, name, description, price,
denormalized stock and home `warehouse_id`. -/
structure ProductRow where
  id : Nat
  name : String
  description : String
  price : Rat
  stock : Int
  warehouseId : Nat
deriving DecidableEq

/-- Row of `warehouse_stocks`: composite key (warehouse_id, product_id),
quantity and reserved_quantity.  The surrogate `id` column, which no decision
in the source reads, is omitted. -/
structure WarehouseStockRow where
  warehouseId : Nat
  productId : Nat
  quantity : Int
  reservedQuantity : Int
deriving DecidableEq

/-- Row of `orders`: id, user_id, total_amount, status. -/
structure OrderRow where
  id : Nat
  userId : Nat
  totalAmount : Rat
  status : String
deriving DecidableEq

/-- Row of `order_items` exactly as the source persists it: the INSERT in
both `CreateOrder` variants writes only (order_id, product_id, quantity), so
the persisted row carries no price. -/
structure OrderItemRow where
  id : Nat
  orderId : Nat
  productId : Nat
  quantity : Int
deriving DecidableEq

/-- Row of `stock_transfers`: nullable source and destination warehouses,
product, quantity, status, requester, completion tick. -/
structure TransferRow where
  id : Nat
  fromWarehouseId : Option Nat
  toWarehouseId : Option Nat
  productId : Nat
  quantity : Int
  status : String
  requestedBy : Nat
  completedAt : Option Nat
deriving DecidableEq

/-- The relational state the engine operates on, plus id counters standing in
for the serial columns and a clock tick for `time.Now()`. -/
structure DB where
  products : List ProductRow
  warehouseStocks : List WarehouseStockRow
  orders : List OrderRow
  orderItems : List OrderItemRow
  transfers : List TransferRow
  nextOrderId : Nat
  nextItemId : Nat
  nextTransferId : Nat
  now : Nat
deriving DecidableEq

/-- Typed errors of the repository layer.  `noRows` is pgx.ErrNoRows;
`insufficientWarehouseStock` is `*InsufficientWarehouseStockError` with its
four fields; `insufficientStock` is the transfer-side
`*InsufficientStockError`; `orderStockMessage`, `createStockMessage` and
`simpleStockMessage` model the `errors.New` wrappers built in
`UpdateOrderStatus` and the two `CreateOrder` variants, carrying exactly the
data interpolated into those message strings. -/
inductive RepoError where
  | noRows
  | insufficientWarehouseStock (productId warehouseId : Nat) (required available : Int)
  | invalidOperation (op : String)
  | orderStockMessage (productName : String) (required available : Int)
  | createStockMessage (productId : Nat)
  | simpleStockMessage (productName : String)
  | insufficientStock (warehouseId productId : Nat) (required available : Int)
  | transferNotPending (transferId : Nat) (status : String)
deriving DecidableEq

/-- Rows of `warehouse_stocks` for one product (the `WHERE ws.product_id = $1`
restriction common to the stock queries). -/
def stocksFor (db : DB) (productId : Nat) : List WarehouseStockRow :=
  db.warehouseStocks.filter (fun ws => ws.productId == productId)

/-- Derived available stock of a row: quantity minus reserved_quantity. -/
def availableOf (ws : WarehouseStockRow) : Int :=
  ws.quantity - ws.reservedQuantity

/-- Value of `COALESCE(SUM(quantity - reserved_quantity), 0)` over a
product's stock rows, used for the error payload of `CheckWarehouseStock`. -/
def totalAvailable (db : DB) (productId : Nat) : Int :=
  (stocksFor db productId).foldl (fun acc ws => acc + (ws.quantity - ws.reservedQuantity)) 0

/-- Result of `ORDER BY quantity DESC LIMIT 1` on a candidate list: the
first row of maximal raw quantity (ties resolved by list position, one
deterministic refinement of the SQL ordering). -/
def selectTop : List WarehouseStockRow → Option WarehouseStockRow
  | [] => none
  | w :: ws => some (ws.foldl (fun best r => if best.quantity < r.quantity then r else best) w)

/-- Embedding of `productRepo.CheckWarehouseStock`
(product_repository.go:258-315).  The SQL filters candidate rows by raw
`quantity >= required` and orders by raw `quantity DESC`; only afterwards is
`available = quantity - reserved_quantity` of the single chosen row compared
against the requirement.  When no row passes the raw-quantity filter the
error carries the product-wide total available and warehouse id 0. -/
def checkWarehouseStock (db : DB) (productId : Nat) (quantity : Int) :
    Except RepoError WarehouseStockRow :=
  match selectTop ((stocksFor db productId).filter (fun ws => decide (quantity ≤ ws.quantity))) with
  | none =>
      .error (.insufficientWarehouseStock productId 0 quantity (totalAvailable db productId))
  | some ws =>
      if ws.quantity - ws.reservedQuantity < quantity then
        .error (.insufficientWarehouseStock productId ws.warehouseId quantity
          (ws.quantity - ws.reservedQuantity))
      else
        .ok ws

/-- Embedding of `productRepo.UpdateWarehouseStock`
(product_repository.go:317-382).  This method begins and commits ITS OWN
transaction on the shared pool, so its state change is committed
independently of any caller's transaction.  `decrease` picks the
highest-raw-quantity warehouse still holding at least `quantity`
(reservations ignored) and decrements that row plus `products.stock`;
`increase` credits the product's home `warehouse_id` (falling back to the
first stock row of the product) and increments `products.stock`. -/
def updateWarehouseStock (db : DB) (productId : Nat) (quantity : Int) (operation : String) :
    Except RepoError DB :=
  if operation = "decrease" then
    match selectTop ((stocksFor db productId).filter (fun ws => decide (quantity ≤ ws.quantity))) with
    | none => .error .noRows
    | some chosen =>
        let db1 : DB := { db with
          warehouseStocks := db.warehouseStocks.map (fun r =>
            if r.productId == productId && r.warehouseId == chosen.warehouseId then
              { r with quantity := r.quantity - quantity }
            else r) }
        .ok { db1 with
          products := db1.products.map (fun p =>
            if p.id == productId then { p with stock := p.stock - quantity } else p) }
  else if operation = "increase" then
    let warehouseId? : Option Nat :=
      match db.products.find? (fun p => p.id == productId) with
      | some p => some p.warehouseId
      | none => (db.warehouseStocks.find? (fun ws => ws.productId == productId)).map
          (fun ws => ws.warehouseId)
    match warehouseId? with
    | none => .error .noRows
    | some wid =>
        let db1 : DB := { db with
          warehouseStocks := db.warehouseStocks.map (fun r =>
            if r.productId == productId && r.warehouseId == wid then
              { r with quantity := r.quantity + quantity }
            else r) }
        .ok { db1 with
          products := db1.products.map (fun p =>
            if p.id == productId then { p with stock := p.stock + quantity } else p) }
  else
    .error (.invalidOperation operation)

/-- Order as returned to callers (`models.Order`; view-only fields such as
the joined username are omitted). -/
structure OrderView where
  id : Nat
  userId : Nat
  totalAmount : Rat
  status : String
deriving DecidableEq

/-- Order item as returned to callers (`models.OrderItem`): unlike the
persisted `order_items` row it carries a `price` field and the joined product
name and description.  Go zero-initialises `Price`, and `GetOrderItems` never
scans a price, so items read back from the database have `price = 0`. -/
structure OrderItemView where
  id : Nat
  orderId : Nat
  productId : Nat
  quantity : Int
  price : Rat
  productName : String
  productDescription : String
deriving DecidableEq

/-- Response shape of `CreateOrder` (`models.OrderWithItems`). -/
structure OrderWithItems where
  order : OrderView
  items : List OrderItemView
deriving DecidableEq

/-- Item of a `CreateOrder` request (`models.CreateOrderItemRequest`). -/
structure CreateOrderItemRequest where
  productId : Nat
  quantity : Int
deriving DecidableEq

/-- Lookup of a product row by id (`SELECT ... FROM products WHERE id = $1`). -/
def findProduct (db : DB) (productId : Nat) : Option ProductRow :=
  db.products.find? (fun p => p.id == productId)

/-- Lookup of an order row by id and owning user
(`WHERE id = $1 AND user_id = $2`). -/
def findOrderRow (db : DB) (orderId userId : Nat) : Option OrderRow :=
  db.orders.find? (fun o => o.id == orderId && o.userId == userId)

/-- Embedding of `orderRepo.GetOrderByID` (order_repository.go:64-76; the
second variant at 373-385 is verbatim-identical).  The SELECT reads only id,
user_id, total_amount and created_at, and the Status field is then hardcoded
to "pending"; the stored status column is never read. -/
def getOrderByID (db : DB) (orderId userId : Nat) : Except RepoError OrderView :=
  match findOrderRow db orderId userId with
  | none => .error .noRows
  | some o => .ok { id := o.id, userId := o.userId, totalAmount := o.totalAmount,
                    status := "pending" }

/-- Embedding of `orderRepo.GetOrderItems` (order_repository.go:78-104): the
order's items joined with `products` for name and description.  The join
drops items whose product row is gone, and no price is scanned, so `price`
is the Go zero value 0. -/
def getOrderItems (db : DB) (orderId : Nat) : List OrderItemView :=
  (db.orderItems.filter (fun it => it.orderId == orderId)).filterMap (fun it =>
    (findProduct db it.productId).map (fun p =>
      { id := it.id, orderId := orderId, productId := it.productId,
        quantity := it.quantity, price := 0,
        productName := p.name, productDescription := p.description }))

/-- The `UPDATE orders SET status = $1 WHERE id = $2 AND user_id = $3` write. -/
def setOrderStatus (db : DB) (orderId userId : Nat) (status : String) : DB :=
  { db with orders := db.orders.map (fun o =>
      if o.id == orderId && o.userId == userId then { o with status := status } else o) }

/-- Per-item loop of the confirm branch of `UpdateOrderStatus`
(order_repository.go:261-278): for each item, `CheckWarehouseStock` (a pool
read of the committed state) and then `UpdateWarehouseStock "decrease"`,
which commits in its own transaction.  On failure the loop stops and the
already-committed decrements REMAIN: the state threaded so far is returned
alongside the error.  A `*InsufficientWarehouseStockError` from the check is
rewrapped as the `errors.New` message carrying product name, required and
available. -/
def confirmItems : DB → List OrderItemView → (Except RepoError Unit) × DB
  | db, [] => (.ok (), db)
  | db, item :: rest =>
    match checkWarehouseStock db item.productId item.quantity with
    | .error (.insufficientWarehouseStock _ _ required available) =>
        (.error (.orderStockMessage item.productName required available), db)
    | .error e => (.error e, db)
    | .ok _ =>
      match updateWarehouseStock db item.productId item.quantity "decrease" with
      | .error e => (.error e, db)
      | .ok db1 => confirmItems db1 rest

/-- Per-item loop of the restore branch of `UpdateOrderStatus`
(order_repository.go:291-298): `UpdateWarehouseStock "increase"` per item,
each committing in its own transaction. -/
def restoreItems : DB → List OrderItemView → (Except RepoError Unit) × DB
  | db, [] => (.ok (), db)
  | db, item :: rest =>
    match updateWarehouseStock db item.productId item.quantity "increase" with
    | .error e => (.error e, db)
    | .ok db1 => restoreItems db1 rest

/-- Embedding of the warehouse-aware `orderRepo.UpdateOrderStatus`
(order_repository.go:214-302).  The surrounding transaction covers ONLY the
status row: the current status is read, an equal status is a silent no-op,
and the status UPDATE is held in the transaction until the final commit.
The stock loops, however, run through the shared pool and commit per item
(see `confirmItems`/`restoreItems`), so on a mid-loop failure the function
returns the state holding those committed stock changes while the status
write is rolled back. -/
def updateOrderStatus (db : DB) (orderId userId : Nat) (status : String) :
    (Except RepoError Unit) × DB :=
  match findOrderRow db orderId userId with
  | none => (.error .noRows, db)
  | some ord =>
    if ord.status = status then (.ok (), db)
    else if status = "confirmed" ∧ ord.status ≠ "confirmed" then
      match confirmItems db (getOrderItems db orderId) with
      | (.error e, db') => (.error e, db')
      | (.ok _, db') => (.ok (), setOrderStatus db' orderId userId status)
    else if (status = "cancelled" ∨ status = "pending") ∧ ord.status = "confirmed" then
      match restoreItems db (getOrderItems db orderId) with
      | (.error e, db') => (.error e, db')
      | (.ok _, db') => (.ok (), setOrderStatus db' orderId userId status)
    else
      (.ok (), setOrderStatus db orderId userId status)

/-- Modelled from the spec: the `orders.status` column default applied by
`INSERT INTO orders (user_id, total_amount)`.  The schema file is not part of
the sources; the spec fixes newly created orders to status `pending`. -/
def defaultOrderStatus : String := "pending"

/-- Price of a product, defaulting to 0 when the row is absent (the default
is never hit on a successful `CreateOrder` run, which has already resolved
every product). -/
def priceOf (db : DB) (productId : Nat) : Rat :=
  match findProduct db productId with
  | some p => p.price
  | none => 0

/-- Specification-level total of an item list against current prices:
`Σ quantity_i × price_i`. -/
def itemsTotal (db : DB) : List CreateOrderItemRequest → Rat
  | [] => 0
  | i :: rest => (i.quantity : Rat) * priceOf db i.productId + itemsTotal db rest

/-- Rows that the item-insert loop of `CreateOrder` appends to
`order_items`, ids drawn consecutively from the serial counter.  The INSERT
writes only (order_id, product_id, quantity). -/
def insertedRows (startId orderId : Nat) : List CreateOrderItemRequest → List OrderItemRow
  | [] => []
  | i :: rest =>
      { id := startId, orderId := orderId, productId := i.productId, quantity := i.quantity }
        :: insertedRows (startId + 1) orderId rest

/-- First loop of the warehouse-aware `CreateOrder`
(order_repository.go:117-137): per item a `CheckWarehouseStock` (rewrapping
an insufficiency as the `errors.New` message carrying the product id) and a
product-details read failing with pgx.ErrNoRows when the product is absent.
Read-only. -/
def precheckItems (db : DB) : List CreateOrderItemRequest → Except RepoError Unit
  | [] => .ok ()
  | item :: rest =>
    match checkWarehouseStock db item.productId item.quantity with
    | .error (.insufficientWarehouseStock pid _ _ _) => .error (.createStockMessage pid)
    | .error e => .error e
    | .ok _ =>
      match findProduct db item.productId with
      | none => .error .noRows
      | some _ => precheckItems db rest

/-- Item-insert loop of the warehouse-aware `CreateOrder`
(order_repository.go:151-182): re-reads the product, inserts the
order_items row (order_id, product_id, quantity), builds the in-memory
`models.OrderItem` carrying the price snapshot, and accumulates
`total += quantity × price`. -/
def insertItems : DB → Nat → List CreateOrderItemRequest →
    Except RepoError (DB × List OrderItemView × Rat)
  | db, _, [] => .ok (db, [], 0)
  | db, orderId, item :: rest =>
    match findProduct db item.productId with
    | none => .error .noRows
    | some p =>
      let itemId := db.nextItemId
      let db1 : DB := { db with
        orderItems := db.orderItems ++
          [{ id := itemId, orderId := orderId, productId := item.productId,
             quantity := item.quantity }],
        nextItemId := itemId + 1 }
      match insertItems db1 orderId rest with
      | .error e => .error e
      | .ok (db2, views, total) =>
          .ok (db2,
            { id := itemId, orderId := orderId, productId := item.productId,
              quantity := item.quantity, price := p.price,
              productName := p.name, productDescription := p.description } :: views,
            (item.quantity : Rat) * p.price + total)

/-- Embedding of the warehouse-aware `orderRepo.CreateOrder`
(order_repository.go:106-212): precheck every item, insert the order with
total 0, insert the items while accumulating the total, update the order's
total, commit.  All writes happen inside one transaction, so any failure
returns with the state untouched (rollback); the serial counters advance
only on commit. -/
def createOrder (db : DB) (userId : Nat) (items : List CreateOrderItemRequest) :
    Except RepoError (OrderWithItems × DB) :=
  match precheckItems db items with
  | .error e => .error e
  | .ok _ =>
    let orderId := db.nextOrderId
    let db1 : DB := { db with
      orders := db.orders ++
        [{ id := orderId, userId := userId, totalAmount := 0, status := defaultOrderStatus }],
      nextOrderId := orderId + 1 }
    match insertItems db1 orderId items with
    | .error e => .error e
    | .ok (db2, views, total) =>
      let db3 : DB := { db2 with
        orders := db2.orders.map (fun o =>
          if o.id == orderId then { o with totalAmount := total } else o) }
      .ok ({ order := { id := orderId, userId := userId, totalAmount := total,
                        status := "pending" },
             items := views }, db3)

/-- Item-insert loop of the simple (single-counter) `CreateOrder` variant
(order_repository.go:435-472): reads price, name, description and stock,
fails with `errors.New` when `stock < quantity`, then inserts the row and
accumulates the total. -/
def insertItemsSimple : DB → Nat → List CreateOrderItemRequest →
    Except RepoError (DB × List OrderItemView × Rat)
  | db, _, [] => .ok (db, [], 0)
  | db, orderId, item :: rest =>
    match findProduct db item.productId with
    | none => .error .noRows
    | some p =>
      if p.stock < item.quantity then .error (.simpleStockMessage p.name)
      else
        let itemId := db.nextItemId
        let db1 : DB := { db with
          orderItems := db.orderItems ++
            [{ id := itemId, orderId := orderId, productId := item.productId,
               quantity := item.quantity }],
          nextItemId := itemId + 1 }
        match insertItemsSimple db1 orderId rest with
        | .error e => .error e
        | .ok (db2, views, total) =>
            .ok (db2,
              { id := itemId, orderId := orderId, productId := item.productId,
                quantity := item.quantity, price := p.price,
                productName := p.name, productDescription := p.description } :: views,
              (item.quantity : Rat) * p.price + total)

/-- Embedding of the simple-variant `orderRepo.CreateOrder`
(order_repository.go:415-502): no warehouse precheck; the stock test is the
inline `products.stock < quantity` comparison inside the insert loop.  One
transaction: any failure rolls the whole order back. -/
def createOrderSimple (db : DB) (userId : Nat) (items : List CreateOrderItemRequest) :
    Except RepoError (OrderWithItems × DB) :=
  let orderId := db.nextOrderId
  let db1 : DB := { db with
    orders := db.orders ++
      [{ id := orderId, userId := userId, totalAmount := 0, status := defaultOrderStatus }],
    nextOrderId := orderId + 1 }
  match insertItemsSimple db1 orderId items with
  | .error e => .error e
  | .ok (db2, views, total) =>
    let db3 : DB := { db2 with
      orders := db2.orders.map (fun o =>
        if o.id == orderId then { o with totalAmount := total } else o) }
    .ok ({ order := { id := orderId, userId := userId, totalAmount := total,
                      status := "pending" },
           items := views }, db3)

/-- Transfer-creation request (`models.StockTransferRequest`; the free-text
reason is irrelevant to every claim and omitted). -/
structure StockTransferRequest where
  fromWarehouseId : Option Nat
  toWarehouseId : Option Nat
  productId : Nat
  quantity : Int
deriving DecidableEq

/-- Lookup of a transfer row by id. -/
def findTransfer (db : DB) (transferId : Nat) : Option TransferRow :=
  db.transfers.find? (fun t => t.id == transferId)

/-- Lookup of the stock row of one (warehouse, product) pair. -/
def findWarehouseStock (db : DB) (warehouseId productId : Nat) : Option WarehouseStockRow :=
  db.warehouseStocks.find? (fun ws => ws.warehouseId == warehouseId && ws.productId == productId)

/-- The `UPDATE stock_transfers SET status = $1, completed_at = $2 WHERE id = $3`
write. -/
def setTransferRow (db : DB) (transferId : Nat) (status : String)
    (completedAt : Option Nat) : DB :=
  { db with transfers := db.transfers.map (fun t =>
      if t.id == transferId then { t with status := status, completedAt := completedAt }
      else t) }

/-- Source-side block of `UpdateTransferStatus` (part_001:550-594): when a
source warehouse is set, its stock row is read under lock, a missing row
counts as available 0, `quantity < transfer.quantity` raises
`InsufficientStockError`, and otherwise the row and `products.stock` are
decremented.  Reservations play no part. -/
def transferSourceStep (db : DB) (fromWarehouseId : Option Nat) (productId : Nat)
    (quantity : Int) : Except RepoError DB :=
  match fromWarehouseId with
  | none => .ok db
  | some w =>
    match findWarehouseStock db w productId with
    | none => .error (.insufficientStock w productId quantity 0)
    | some ws =>
      if ws.quantity < quantity then
        .error (.insufficientStock w productId quantity ws.quantity)
      else
        let db1 : DB := { db with
          warehouseStocks := db.warehouseStocks.map (fun r =>
            if r.warehouseId == w && r.productId == productId then
              { r with quantity := r.quantity - quantity }
            else r) }
        .ok { db1 with
          products := db1.products.map (fun p =>
            if p.id == productId then { p with stock := p.stock - quantity } else p) }

/-- Destination-side block of `UpdateTransferStatus` (part_001:596-631): when
a destination warehouse is set, its stock row is incremented when it exists
and created (with reserved_quantity at its schema default 0) otherwise, and
`products.stock` is incremented. -/
def transferDestStep (db : DB) (toWarehouseId : Option Nat) (productId : Nat)
    (quantity : Int) : Except RepoError DB :=
  match toWarehouseId with
  | none => .ok db
  | some w =>
    let db1 : DB :=
      if (findWarehouseStock db w productId).isSome then
        { db with warehouseStocks := db.warehouseStocks.map (fun r =>
            if r.warehouseId == w && r.productId == productId then
              { r with quantity := r.quantity + quantity }
            else r) }
      else
        { db with warehouseStocks := db.warehouseStocks ++
            [{ warehouseId := w, productId := productId, quantity := quantity,
               reservedQuantity := 0 }] }
    .ok { db1 with
      products := db1.products.map (fun p =>
        if p.id == productId then { p with stock := p.stock + quantity } else p) }

/-- Source-side block of `ProcessTransfer` (part_001:661-705), textually
identical to the one inside `UpdateTransferStatus`. -/
def processSourceStep (db : DB) (fromWarehouseId : Option Nat) (productId : Nat)
    (quantity : Int) : Except RepoError DB :=
  match fromWarehouseId with
  | none => .ok db
  | some w =>
    match findWarehouseStock db w productId with
    | none => .error (.insufficientStock w productId quantity 0)
    | some ws =>
      if ws.quantity < quantity then
        .error (.insufficientStock w productId quantity ws.quantity)
      else
        let db1 : DB := { db with
          warehouseStocks := db.warehouseStocks.map (fun r =>
            if r.warehouseId == w && r.productId == productId then
              { r with quantity := r.quantity - quantity }
            else r) }
        .ok { db1 with
          products := db1.products.map (fun p =>
            if p.id == productId then { p with stock := p.stock - quantity } else p) }

/-- Destination-side block of `ProcessTransfer` (part_001:707-742),
textually identical to the one inside `UpdateTransferStatus`. -/
def processDestStep (db : DB) (toWarehouseId : Option Nat) (productId : Nat)
    (quantity : Int) : Except RepoError DB :=
  match toWarehouseId with
  | none => .ok db
  | some w =>
    let db1 : DB :=
      if (findWarehouseStock db w productId).isSome then
        { db with warehouseStocks := db.warehouseStocks.map (fun r =>
            if r.warehouseId == w && r.productId == productId then
              { r with quantity := r.quantity + quantity }
            else r) }
      else
        { db with warehouseStocks := db.warehouseStocks ++
            [{ warehouseId := w, productId := productId, quantity := quantity,
               reservedQuantity := 0 }] }
    .ok { db1 with
      products := db1.products.map (fun p =>
        if p.id == productId then { p with stock := p.stock + quantity } else p) }

/-- Embedding of `warehouseRepo.UpdateTransferStatus` (part_001:495-635), in
one transaction end to end.  An equal status is a no-op commit.  Otherwise
completed_at is set to now exactly when the NEW status is terminal
(completed, failed or cancelled) and cleared to NULL otherwise, and the
status row is updated.  Only the specific combination of new status
`completed` with prior status `pending` triggers the stock movement; any
other combination — including completing a `failed` or `cancelled` transfer —
commits the bare status change without touching stock and without a
`TransferNotPendingError`. -/
def updateTransferStatus (db : DB) (transferId : Nat) (status : String) :
    Except RepoError DB :=
  match findTransfer db transferId with
  | none => .error .noRows
  | some t =>
    if t.status = status then .ok db
    else
      let completedAt : Option Nat :=
        if status = "completed" ∨ status = "failed" ∨ status = "cancelled" then
          some db.now
        else none
      let db1 := setTransferRow db transferId status completedAt
      if status = "completed" ∧ t.status = "pending" then
        match transferSourceStep db1 t.fromWarehouseId t.productId t.quantity with
        | .error e => .error e
        | .ok db2 =>
          match transferDestStep db2 t.toWarehouseId t.productId t.quantity with
          | .error e => .error e
          | .ok db3 => .ok db3
      else .ok db1

/-- Embedding of `warehouseRepo.ProcessTransfer` (part_001:637-754), in one
transaction: the transfer row is read under lock, any non-`pending` status is
rejected with `TransferNotPendingError`, then the source and destination
blocks run and the transfer is marked completed with completed_at = now. -/
def processTransfer (db : DB) (transferId : Nat) : Except RepoError DB :=
  match findTransfer db transferId with
  | none => .error .noRows
  | some t =>
    if t.status ≠ "pending" then .error (.transferNotPending transferId t.status)
    else
      match processSourceStep db t.fromWarehouseId t.productId t.quantity with
      | .error e => .error e
      | .ok db1 =>
        match processDestStep db1 t.toWarehouseId t.productId t.quantity with
        | .error e => .error e
        | .ok db2 => .ok (setTransferRow db2 transferId "completed" (some db.now))

/-- Modelled from the spec: the `stock_transfers.status` column default
applied by the INSERT of `CreateStockTransfer`, whose column list omits
status.  The schema file is not part of the sources; the spec fixes newly
created transfers to status `pending`. -/
def defaultTransferStatus : String := "pending"

/-- Embedding of `warehouseRepo.CreateStockTransfer` (part_001:415-431) and
its handler (part_007:393-411): the request is inserted as-is — no
validation of the source/destination pair happens anywhere on the path —
and the stored row (status and completed_at at their defaults) is returned. -/
def createStockTransfer (db : DB) (req : StockTransferRequest) (requestedBy : Nat) :
    TransferRow × DB :=
  let row : TransferRow :=
    { id := db.nextTransferId, fromWarehouseId := req.fromWarehouseId,
      toWarehouseId := req.toWarehouseId, productId := req.productId,
      quantity := req.quantity, status := defaultTransferStatus,
      requestedBy := requestedBy, completedAt := none }
  (row, { db with transfers := db.transfers ++ [row],
                  nextTransferId := db.nextTransferId + 1 })

/-! Concrete database states used to evaluate the operations on explicit
inputs. -/

/-- State with one pending two-item order whose second item cannot be
covered: product 1 and product 2 each hold exactly 1 unit in warehouse 1,
and the order asks for 1 unit of product 1 and 5 units of product 2. -/
def dbS1 : DB :=
  { products :=
      [ { id := 1, name := "p1", description := "d", price := 10, stock := 1, warehouseId := 1 },
        { id := 2, name := "p2", description := "d", price := 20, stock := 1, warehouseId := 1 } ],
    warehouseStocks :=
      [ { warehouseId := 1, productId := 1, quantity := 1, reservedQuantity := 0 },
        { warehouseId := 1, productId := 2, quantity := 1, reservedQuantity := 0 } ],
    orders := [ { id := 1, userId := 1, totalAmount := 0, status := "pending" } ],
    orderItems :=
      [ { id := 1, orderId := 1, productId := 1, quantity := 1 },
        { id := 2, orderId := 1, productId := 2, quantity := 5 } ],
    transfers := [],
    nextOrderId := 2, nextItemId := 3, nextTransferId := 1, now := 0 }

/-- State with one pending one-item order of product 1 whose home warehouse
is 1 but whose largest stock pile sits in warehouse 2. -/
def dbS2 : DB :=
  { products :=
      [ { id := 1, name := "p1", description := "d", price := 10, stock := 15, warehouseId := 1 } ],
    warehouseStocks :=
      [ { warehouseId := 1, productId := 1, quantity := 5, reservedQuantity := 0 },
        { warehouseId := 2, productId := 1, quantity := 10, reservedQuantity := 0 } ],
    orders := [ { id := 1, userId := 1, totalAmount := 30, status := "pending" } ],
    orderItems := [ { id := 1, orderId := 1, productId := 1, quantity := 3 } ],
    transfers := [],
    nextOrderId := 2, nextItemId := 2, nextTransferId := 1, now := 0 }

/-- State of `dbS2` after confirming its order. -/
def dbS2conf : DB := (updateOrderStatus dbS2 1 1 "confirmed").2

/-- State of `dbS2` after confirming and then cancelling its order. -/
def dbS2round : DB := (updateOrderStatus dbS2conf 1 1 "cancelled").2

/-- State with one transfer in status `failed`, source warehouse 1 holding
plenty of stock. -/
def dbS3 : DB :=
  { products :=
      [ { id := 1, name := "p1", description := "d", price := 10, stock := 10, warehouseId := 1 } ],
    warehouseStocks := [ { warehouseId := 1, productId := 1, quantity := 10, reservedQuantity := 0 } ],
    orders := [], orderItems := [],
    transfers :=
      [ { id := 1, fromWarehouseId := some 1, toWarehouseId := some 2, productId := 1,
          quantity := 4, status := "failed", requestedBy := 1, completedAt := some 7 } ],
    nextOrderId := 1, nextItemId := 1, nextTransferId := 2, now := 9 }

/-- State identical to `dbS3` except that the transfer is still `pending`. -/
def dbS3p : DB :=
  { dbS3 with transfers :=
      [ { id := 1, fromWarehouseId := some 1, toWarehouseId := some 2, productId := 1,
          quantity := 4, status := "pending", requestedBy := 1, completedAt := none } ] }

/-- State where warehouse 1 holds quantity 10 of product 1 but 8 of them are
reserved (available 2), while warehouse 2 holds 5 fully available units. -/
def dbS4 : DB :=
  { products :=
      [ { id := 1, name := "p1", description := "d", price := 10, stock := 15, warehouseId := 1 } ],
    warehouseStocks :=
      [ { warehouseId := 1, productId := 1, quantity := 10, reservedQuantity := 8 },
        { warehouseId := 2, productId := 1, quantity := 5, reservedQuantity := 0 } ],
    orders := [], orderItems := [], transfers := [],
    nextOrderId := 1, nextItemId := 1, nextTransferId := 1, now := 0 }

/-- State with a single stock row of quantity 10 of which 8 are reserved. -/
def dbS5 : DB :=
  { products :=
      [ { id := 1, name := "p1", description := "d", price := 10, stock := 10, warehouseId := 1 } ],
    warehouseStocks := [ { warehouseId := 1, productId := 1, quantity := 10, reservedQuantity := 8 } ],
    orders := [], orderItems := [], transfers := [],
    nextOrderId := 1, nextItemId := 1, nextTransferId := 1, now := 0 }

/-- State with one fully available product priced 999 and no orders yet. -/
def dbS6 : DB :=
  { products :=
      [ { id := 1, name := "p1", description := "d", price := 999, stock := 10, warehouseId := 1 } ],
    warehouseStocks := [ { warehouseId := 1, productId := 1, quantity := 10, reservedQuantity := 0 } ],
    orders := [], orderItems := [], transfers := [],
    nextOrderId := 1, nextItemId := 1, nextTransferId := 1, now := 0 }

/-- Single-item request list used with `dbS6`. -/
def itemsS6 : List CreateOrderItemRequest := [{ productId := 1, quantity := 2 }]

/-- Response of `CreateOrder` on `dbS6` with `itemsS6`. -/
def owiS6 : OrderWithItems :=
  { order := { id := 1, userId := 1, totalAmount := itemsTotal dbS6 itemsS6,
               status := "pending" },
    items := [{ id := 1, orderId := 1, productId := 1, quantity := 2, price := 999,
                productName := "p1", productDescription := "d" }] }

/-- State of `dbS6` after `CreateOrder` with `itemsS6`. -/
def dbS6ins : DB :=
  { products := dbS6.products, warehouseStocks := dbS6.warehouseStocks,
    orders := [{ id := 1, userId := 1, totalAmount := itemsTotal dbS6 itemsS6,
                 status := "pending" }],
    orderItems := [{ id := 1, orderId := 1, productId := 1, quantity := 2 }],
    transfers := [], nextOrderId := 2, nextItemId := 2, nextTransferId := 1, now := 0 }

/-- State with one pending order and one pending transfer, for the no-op
checks. -/
def dbS7 : DB :=
  { products := [], warehouseStocks := [],
    orders := [ { id := 1, userId := 1, totalAmount := 0, status := "pending" } ],
    orderItems := [],
    transfers :=
      [ { id := 1, fromWarehouseId := none, toWarehouseId := none, productId := 1,
          quantity := 1, status := "pending", requestedBy := 1, completedAt := none } ],
    nextOrderId := 2, nextItemId := 1, nextTransferId := 2, now := 0 }

/-- State with a cancelled order and a completed transfer, for the
terminal-state checks. -/
def dbS8 : DB :=
  { products := [], warehouseStocks := [],
    orders := [ { id := 1, userId := 1, totalAmount := 0, status := "cancelled" } ],
    orderItems := [],
    transfers :=
      [ { id := 1, fromWarehouseId := some 1, toWarehouseId := some 2, productId := 1,
          quantity := 3, status := "completed", requestedBy := 1, completedAt := some 4 } ],
    nextOrderId := 2, nextItemId := 1, nextTransferId := 2, now := 9 }

/-- Empty state for the transfer-creation checks. -/
def dbS9 : DB :=
  { products := [], warehouseStocks := [], orders := [], orderItems := [], transfers := [],
    nextOrderId := 1, nextItemId := 1, nextTransferId := 1, now := 0 }

/-- Transfer request with neither source nor destination warehouse. -/
def reqS9 : StockTransferRequest :=
  { fromWarehouseId := none, toWarehouseId := none, productId := 1, quantity := 2 }

/-- State with one order stored in status `confirmed`, for the read-back
check. -/
def dbS10 : DB :=
  { products := [], warehouseStocks := [],
    orders := [ { id := 1, userId := 1, totalAmount := 5, status := "confirmed" } ],
    orderItems := [], transfers := [],
    nextOrderId := 2, nextItemId := 1, nextTransferId := 1, now := 0 }

/-- Order view returned for the order of `dbS10`. -/
def vwS10 : OrderView := { id := 1, userId := 1, totalAmount := 5, status := "pending" }

/-- Total quantity an item list orders of one product. -/
def itemsQty : List OrderItemView → Nat → Int
  | [], _ => 0
  | i :: rest, pid => (if i.productId = pid then i.quantity else 0) + itemsQty rest pid

/-- Key-uniqueness of the `warehouse_stocks` table: the schema's UNIQUE
constraint on (warehouse_id, product_id). -/
def wsKeyUnique (l : List WarehouseStockRow) : Prop :=
  ∀ r ∈ l, ∀ s ∈ l, r.warehouseId = s.warehouseId → r.productId = s.productId → r = s

/-- Committed state after a repository call: the new state on success, the
unchanged prior state when the transaction rolled back with an error. -/
def commitOr (r : Except RepoError DB) (db : DB) : DB :=
  r.toOption.getD db

/-! Helper lemmas. -/

theorem find?_map_of_pred {α : Type} (f : α → α) (p : α → Bool)
    (h : ∀ a, p (f a) = p a) (l : List α) :
    (l.map f).find? p = (l.find? p).map f := by
  rw [List.find?_map]
  have hpf : p ∘ f = p := funext h
  rw [hpf]

theorem findOrderRow_map_status (db : DB) (orderId userId : Nat) (f : OrderRow → String) :
    findOrderRow { db with orders := db.orders.map (fun r => { r with status := f r }) }
        orderId userId
      = (findOrderRow db orderId userId).map (fun r => { r with status := f r }) := by
  unfold findOrderRow
  show (db.orders.map (fun r => { r with status := f r })).find?
        (fun o => o.id == orderId && o.userId == userId)
      = (db.orders.find? (fun o => o.id == orderId && o.userId == userId)).map
        (fun r => { r with status := f r })
  exact find?_map_of_pred (fun r => { r with status := f r })
    (fun o => o.id == orderId && o.userId == userId) (fun a => rfl) db.orders

/-- Claim C10: for every existing order matching the given order id and user
id, `GetOrderByID` returns the order with its Status field equal to
"pending", regardless of the status value stored in the database; the stored
status column is never read (the result is invariant under arbitrary
rewrites of the stored statuses). -/
theorem getOrderByID_status_hardcoded_pending :
    (∀ (db : DB) (orderId userId : Nat) (o : OrderView),
        getOrderByID db orderId userId = .ok o → o.status = "pending")
    ∧ (∀ (db : DB) (orderId userId : Nat) (f : OrderRow → String),
        getOrderByID { db with orders := db.orders.map (fun r => { r with status := f r }) }
            orderId userId
          = getOrderByID db orderId userId) := by
  constructor
  · intro db oid uid o h
    unfold getOrderByID at h
    cases hf : findOrderRow db oid uid with
    | none => rw [hf] at h; exact Except.noConfusion h
    | some r => rw [hf] at h; cases h; rfl
  · intro db oid uid f
    unfold getOrderByID
    rw [findOrderRow_map_status]
    cases hf : findOrderRow db oid uid with
    | none => rfl
    | some r => rfl

/-- Witness for C10: in `dbS10` the order is stored with status
`confirmed`, yet `GetOrderByID` reports it as `pending`. -/
theorem getOrderByID_status_hardcoded_pending_witness :
    getOrderByID dbS10 1 1 = .ok vwS10 ∧ vwS10.status = "pending" :=
  ⟨rfl, getOrderByID_status_hardcoded_pending.1 dbS10 1 1 vwS10 rfl⟩

/-- Claim C7: invoking the status-update operation of an order or a transfer
with the entity's current status is a no-op returning success: the state is
returned unchanged (no stock mutation, no status write) and no error is
raised. -/
theorem status_update_same_status_noop :
    (∀ (db : DB) (orderId userId : Nat) (s : String) (ord : OrderRow),
        findOrderRow db orderId userId = some ord → ord.status = s →
        updateOrderStatus db orderId userId s = (.ok (), db))
    ∧ (∀ (db : DB) (transferId : Nat) (s : String) (t : TransferRow),
        findTransfer db transferId = some t → t.status = s →
        updateTransferStatus db transferId s = .ok db) := by
  constructor
  · intro db oid uid s ord hf hs
    unfold updateOrderStatus
    rw [hf]
    simp [hs]
  · intro db tid s t hf hs
    unfold updateTransferStatus
    rw [hf]
    simp [hs]

/-- Witness for C7: re-setting the pending order and the pending transfer of
`dbS7` to `pending` returns success and leaves the state untouched. -/
theorem status_update_same_status_noop_witness :
    updateOrderStatus dbS7 1 1 "pending" = (.ok (), dbS7)
    ∧ updateTransferStatus dbS7 1 "pending" = .ok dbS7 :=
  ⟨status_update_same_status_noop.1 dbS7 1 1 "pending"
      { id := 1, userId := 1, totalAmount := 0, status := "pending" } rfl rfl,
   status_update_same_status_noop.2 dbS7 1 "pending"
      { id := 1, fromWarehouseId := none, toWarehouseId := none, productId := 1,
        quantity := 1, status := "pending", requestedBy := 1, completedAt := none } rfl rfl⟩

/-- Counterexample for C9: `CreateStockTransfer` on a request with both
warehouses null does not reject — it persists a pending transfer row with
both endpoints null and touches no stock. -/
theorem null_null_transfer_created :
    ((createStockTransfer dbS9 reqS9 1).2.transfers.map
        (fun t => (t.fromWarehouseId, t.toWarehouseId, t.status)))
      = [(none, none, "pending")]
    ∧ (createStockTransfer dbS9 reqS9 1).1.status = "pending"
    ∧ (createStockTransfer dbS9 reqS9 1).2.warehouseStocks = dbS9.warehouseStocks :=
  ⟨rfl, rfl, rfl⟩

/-- Claim C9, amended: the creation path performs no source/destination
validation at all: a transfer request with both warehouses null is persisted
as a pending transfer row (creation succeeds and returns it), with no stock
touched; the rejection the spec calls for happens neither at creation nor at
processing time. -/
theorem createStockTransfer_no_endpoint_validation :
    ∀ (db : DB) (req : StockTransferRequest) (requestedBy : Nat),
      req.fromWarehouseId = none → req.toWarehouseId = none →
      (createStockTransfer db req requestedBy).1.status = "pending"
      ∧ (createStockTransfer db req requestedBy).1.fromWarehouseId = none
      ∧ (createStockTransfer db req requestedBy).1.toWarehouseId = none
      ∧ (createStockTransfer db req requestedBy).2.transfers
          = db.transfers ++ [(createStockTransfer db req requestedBy).1]
      ∧ (createStockTransfer db req requestedBy).2.warehouseStocks = db.warehouseStocks
      ∧ (createStockTransfer db req requestedBy).2.products = db.products := by
  intro db req uid hfrom hto
  refine ⟨rfl, ?_, ?_, rfl, rfl, rfl⟩
  · simpa [createStockTransfer] using hfrom
  · simpa [createStockTransfer] using hto

/-- Witness for C9: the amended statement evaluated on the concrete empty
state and the null/null request. -/
theorem createStockTransfer_no_endpoint_validation_witness :
    reqS9.fromWarehouseId = none ∧ reqS9.toWarehouseId = none
    ∧ (createStockTransfer dbS9 reqS9 1).1.status = "pending"
    ∧ (createStockTransfer dbS9 reqS9 1).2.transfers
        = dbS9.transfers ++ [(createStockTransfer dbS9 reqS9 1).1] :=
  ⟨rfl, rfl, (createStockTransfer_no_endpoint_validation dbS9 reqS9 1 rfl rfl).1,
   (createStockTransfer_no_endpoint_validation dbS9 reqS9 1 rfl rfl).2.2.2.1⟩

/-- Counterexample for C8: in `dbS8` the order is `cancelled` and the
transfer is `completed` (completed_at 4), yet both status updates to
`pending` succeed: the order leaves `cancelled` and the transfer leaves its
terminal state with completed_at cleared. -/
theorem terminal_status_not_enforced :
    dbS8.orders.map (fun o => o.status) = ["cancelled"]
    ∧ dbS8.transfers.map (fun t => (t.status, t.completedAt)) = [("completed", some 4)]
    ∧ (updateOrderStatus dbS8 1 1 "pending").1 = .ok ()
    ∧ (updateOrderStatus dbS8 1 1 "pending").2.orders.map (fun o => o.status) = ["pending"]
    ∧ ((updateTransferStatus dbS8 1 "pending").toOption.map
        (fun d => d.transfers.map (fun t => (t.status, t.completedAt))))
      = some [("pending", none)] :=
  ⟨rfl, rfl, rfl, rfl, rfl⟩

/-- Claim C8, amended: neither status-update operation enforces terminal
states.  A cancelled order can be moved back to any other status (here:
`pending`, which succeeds as a bare status write); a transfer in any
terminal state can be moved to any different status; and `completed_at` is
set to now whenever the NEW status is terminal and cleared to NULL whenever
it is not, regardless of the prior state — it is not set exactly on first
entry into a terminal state. -/
theorem status_updates_ignore_terminal_states :
    (∀ (db : DB) (orderId userId : Nat) (ord : OrderRow),
        findOrderRow db orderId userId = some ord → ord.status = "cancelled" →
        updateOrderStatus db orderId userId "pending"
          = (.ok (), setOrderStatus db orderId userId "pending"))
    ∧ (∀ (db : DB) (transferId : Nat) (t : TransferRow),
        findTransfer db transferId = some t →
        (t.status = "completed" ∨ t.status = "failed" ∨ t.status = "cancelled") →
        updateTransferStatus db transferId "pending"
          = .ok (setTransferRow db transferId "pending" none))
    ∧ (∀ (db : DB) (transferId : Nat) (t : TransferRow) (s : String),
        findTransfer db transferId = some t → t.status ≠ s →
        (s = "failed" ∨ s = "cancelled") →
        updateTransferStatus db transferId s
          = .ok (setTransferRow db transferId s (some db.now))) := by
  refine ⟨?_, ?_, ?_⟩
  · intro db oid uid ord hf hs
    unfold updateOrderStatus
    rw [hf]
    simp [hs]
  · intro db tid t hf hterm
    unfold updateTransferStatus
    rw [hf]
    rcases hterm with h | h | h <;> simp [h]
  · intro db tid t s hf hne hs
    simp only [updateTransferStatus, hf]
    rw [if_neg hne]
    rcases hs with h | h <;> subst h <;> simp

/-- Witness for C8: the amended statement evaluated on `dbS8`. -/
theorem status_updates_ignore_terminal_states_witness :
    updateOrderStatus dbS8 1 1 "pending" = (.ok (), setOrderStatus dbS8 1 1 "pending")
    ∧ updateTransferStatus dbS8 1 "pending" = .ok (setTransferRow dbS8 1 "pending" none)
    ∧ updateTransferStatus dbS8 1 "failed"
        = .ok (setTransferRow dbS8 1 "failed" (some dbS8.now)) :=
  ⟨status_updates_ignore_terminal_states.1 dbS8 1 1
      { id := 1, userId := 1, totalAmount := 0, status := "cancelled" } rfl rfl,
   status_updates_ignore_terminal_states.2.1 dbS8 1
      { id := 1, fromWarehouseId := some 1, toWarehouseId := some 2, productId := 1,
        quantity := 3, status := "completed", requestedBy := 1, completedAt := some 4 }
      rfl (Or.inl rfl),
   status_updates_ignore_terminal_states.2.2 dbS8 1
      { id := 1, fromWarehouseId := some 1, toWarehouseId := some 2, productId := 1,
        quantity := 3, status := "completed", requestedBy := 1, completedAt := some 4 }
      "failed" rfl (by decide) (Or.inl rfl)⟩

/-- Counterexample for C4: in `dbS4`, warehouse 2 holds 5 fully available
units of product 1 — enough for the requested 4 — but `CheckWarehouseStock`
picks warehouse 1 (highest RAW quantity 10, of which 8 are reserved) and
fails with required 4 / available 2. -/
theorem checkWarehouseStock_not_best_available :
    checkWarehouseStock dbS4 1 4 = .error (.insufficientWarehouseStock 1 1 4 2)
    ∧ ({ warehouseId := 2, productId := 1, quantity := 5, reservedQuantity := 0 }
        : WarehouseStockRow) ∈ stocksFor dbS4 1
    ∧ (4 : Int) ≤ availableOf
        { warehouseId := 2, productId := 1, quantity := 5, reservedQuantity := 0 } :=
  ⟨rfl, by decide, by decide⟩

theorem selectTop_aux_mem (l : List WarehouseStockRow) :
    ∀ w : WarehouseStockRow,
      l.foldl (fun best r => if best.quantity < r.quantity then r else best) w = w
      ∨ l.foldl (fun best r => if best.quantity < r.quantity then r else best) w ∈ l := by
  induction l with
  | nil => intro w; exact Or.inl rfl
  | cons r rest ih =>
    intro w
    rw [List.foldl_cons]
    by_cases hc : w.quantity < r.quantity
    · rw [if_pos hc]
      rcases ih r with h | h
      · right; rw [h]; exact List.mem_cons_self r rest
      · exact Or.inr (List.mem_cons_of_mem r h)
    · rw [if_neg hc]
      rcases ih w with h | h
      · exact Or.inl h
      · exact Or.inr (List.mem_cons_of_mem r h)

theorem selectTop_aux_le (l : List WarehouseStockRow) :
    ∀ w : WarehouseStockRow,
      w.quantity ≤ (l.foldl (fun best r => if best.quantity < r.quantity then r else best)
          w).quantity
      ∧ ∀ r ∈ l,
          r.quantity ≤ (l.foldl (fun best r => if best.quantity < r.quantity then r else best)
            w).quantity := by
  induction l with
  | nil =>
    intro w
    exact ⟨le_refl _, by intro x hx; cases hx⟩
  | cons r rest ih =>
    intro w
    rw [List.foldl_cons]
    by_cases hc : w.quantity < r.quantity
    · rw [if_pos hc]
      obtain ⟨h1, h2⟩ := ih r
      refine ⟨le_of_lt (lt_of_lt_of_le hc h1), ?_⟩
      intro x hx
      rcases List.mem_cons.mp hx with rfl | hx'
      · exact h1
      · exact h2 x hx'
    · rw [if_neg hc]
      obtain ⟨h1, h2⟩ := ih w
      refine ⟨h1, ?_⟩
      intro x hx
      rcases List.mem_cons.mp hx with rfl | hx'
      · exact le_trans (le_of_not_lt hc) h1
      · exact h2 x hx'

theorem selectTop_mem {l : List WarehouseStockRow} {w : WarehouseStockRow}
    (h : selectTop l = some w) : w ∈ l := by
  cases l with
  | nil => exact Option.noConfusion h
  | cons a rest =>
    unfold selectTop at h
    injection h with h
    rcases selectTop_aux_mem rest a with h' | h'
    · rw [← h, h']; exact List.mem_cons_self a rest
    · rw [← h]; exact List.mem_cons_of_mem a h'

theorem selectTop_le {l : List WarehouseStockRow} {w : WarehouseStockRow}
    (h : selectTop l = some w) : ∀ r ∈ l, r.quantity ≤ w.quantity := by
  cases l with
  | nil => exact Option.noConfusion h
  | cons a rest =>
    unfold selectTop at h
    injection h with h
    intro r hr
    rcases List.mem_cons.mp hr with rfl | hr'
    · rw [← h]; exact (selectTop_aux_le rest r).1
    · rw [← h]; exact (selectTop_aux_le rest a).2 r hr'

/-- Claim C4, amended: `CheckWarehouseStock` filters and ranks candidate
warehouses by RAW quantity, not by available quantity: a returned warehouse
holds at least the required raw quantity, has available (quantity minus
reserved) at least the requirement, and carries the maximal raw quantity
among all candidate rows with raw quantity at least the requirement; it
never splits the requirement (a single row is returned).  Every failure is
an `InsufficientStock` error carrying the required quantity and an available
quantity — but the check may fail even though some other warehouse has
sufficient AVAILABLE stock, because ranking ignores reservations. -/
theorem checkWarehouseStock_greedy_raw_quantity :
    (∀ (db : DB) (productId : Nat) (q : Int) (ws : WarehouseStockRow),
        checkWarehouseStock db productId q = .ok ws →
        ws ∈ stocksFor db productId ∧ q ≤ ws.quantity
        ∧ q ≤ ws.quantity - ws.reservedQuantity
        ∧ ∀ r ∈ stocksFor db productId, q ≤ r.quantity → r.quantity ≤ ws.quantity)
    ∧ (∀ (db : DB) (productId : Nat) (q : Int) (e : RepoError),
        checkWarehouseStock db productId q = .error e →
        ∃ (wid : Nat) (avail : Int),
          e = .insufficientWarehouseStock productId wid q avail) := by
  constructor
  · intro db pid q ws h
    unfold checkWarehouseStock at h
    cases hsel : selectTop ((stocksFor db pid).filter (fun r => decide (q ≤ r.quantity))) with
    | none => rw [hsel] at h; exact Except.noConfusion h
    | some c =>
      rw [hsel] at h
      have h' : (if c.quantity - c.reservedQuantity < q then
            Except.error (RepoError.insufficientWarehouseStock pid c.warehouseId q
              (c.quantity - c.reservedQuantity))
          else Except.ok c) = Except.ok ws := h
      by_cases hq : c.quantity - c.reservedQuantity < q
      · rw [if_pos hq] at h'; exact Except.noConfusion h'
      · rw [if_neg hq] at h'
        cases h'
        have hmem := selectTop_mem hsel
        have hf := List.mem_filter.mp hmem
        refine ⟨hf.1, of_decide_eq_true hf.2, le_of_not_lt hq, ?_⟩
        intro r hr hqr
        exact selectTop_le hsel r (List.mem_filter.mpr ⟨hr, decide_eq_true hqr⟩)
  · intro db pid q e h
    unfold checkWarehouseStock at h
    cases hsel : selectTop ((stocksFor db pid).filter (fun r => decide (q ≤ r.quantity))) with
    | none =>
      rw [hsel] at h
      cases h
      exact ⟨0, totalAvailable db pid, rfl⟩
    | some c =>
      rw [hsel] at h
      have h' : (if c.quantity - c.reservedQuantity < q then
            Except.error (RepoError.insufficientWarehouseStock pid c.warehouseId q
              (c.quantity - c.reservedQuantity))
          else Except.ok c) = Except.error e := h
      by_cases hq : c.quantity - c.reservedQuantity < q
      · rw [if_pos hq] at h'
        cases h'
        exact ⟨c.warehouseId, c.quantity - c.reservedQuantity, rfl⟩
      · rw [if_neg hq] at h'; exact Except.noConfusion h'

/-- Witness for C4: on `dbS4` a request of 1 unit succeeds with warehouse 1
(raw quantity 10, available 2 ≥ 1), and the failing request of 4 units
yields an `InsufficientStock` error carrying required 4. -/
theorem checkWarehouseStock_greedy_raw_quantity_witness :
    checkWarehouseStock dbS4 1 1
        = .ok { warehouseId := 1, productId := 1, quantity := 10, reservedQuantity := 8 }
    ∧ (1 : Int) ≤ (10 : Int) - 8
    ∧ (∃ (wid : Nat) (avail : Int),
        (RepoError.insufficientWarehouseStock 1 1 4 2)
          = .insufficientWarehouseStock 1 wid 4 avail) :=
  ⟨rfl,
   (checkWarehouseStock_greedy_raw_quantity.1 dbS4 1 1
      { warehouseId := 1, productId := 1, quantity := 10, reservedQuantity := 8 } rfl).2.2.1,
   checkWarehouseStock_greedy_raw_quantity.2 dbS4 1 4
      (RepoError.insufficientWarehouseStock 1 1 4 2) rfl⟩

/-- Counterexample for C5: in `dbS5` every row has available ≥ 0 (10 − 8 = 2),
yet the decrement of 5 — legal because raw quantity 10 ≥ 5 — leaves
quantity 5 below reserved_quantity 8, making available −3 < 0. -/
theorem decrease_drives_available_negative :
    (∀ w ∈ dbS5.warehouseStocks, 0 ≤ availableOf w)
    ∧ ((updateWarehouseStock dbS5 1 5 "decrease").toOption.map
        (fun d => d.warehouseStocks.map (fun w => (w.quantity, w.reservedQuantity, availableOf w))))
      = some [(5, 8, -3)] :=
  ⟨by decide, rfl⟩

/-- Claim C1 (evaluation at the failing input): confirming the two-item
order of `dbS1` fails on the second item, and the transaction around the
status write rolls back (status stays `pending`) — but the first item's
stock decrement, committed by `UpdateWarehouseStock` in its own transaction,
survives: product 1's stock and warehouse quantity drop from 1 to 0.  The
status write and the per-item stock decrements do NOT commit together. -/
theorem updateOrderStatus_confirm_commits_stock_outside_tx :
    (updateOrderStatus dbS1 1 1 "confirmed").1
        = .error (.orderStockMessage "p2" 5 1)
    ∧ (updateOrderStatus dbS1 1 1 "confirmed").2.orders.map (fun o => o.status) = ["pending"]
    ∧ (updateOrderStatus dbS1 1 1 "confirmed").2.products.map (fun p => p.stock) = [0, 1]
    ∧ (updateOrderStatus dbS1 1 1 "confirmed").2.warehouseStocks.map (fun w => w.quantity)
        = [0, 1]
    ∧ dbS1.products.map (fun p => p.stock) = [1, 1]
    ∧ dbS1.warehouseStocks.map (fun w => w.quantity) = [1, 1] :=
  ⟨rfl, rfl, rfl, rfl, rfl, rfl⟩

/-- Counterexample for C3: on the `failed` transfer of `dbS3`,
`ProcessTransfer` rejects with `TransferNotPending` while
`UpdateTransferStatus(id, "completed")` succeeds, marks the transfer
completed (resetting completed_at to now = 9) and moves NO stock — the two
entry points are not equivalent. -/
theorem transfer_entry_points_differ_on_failed :
    processTransfer dbS3 1 = .error (.transferNotPending 1 "failed")
    ∧ ((updateTransferStatus dbS3 1 "completed").toOption.map
        (fun d => (d.transfers.map (fun t => (t.status, t.completedAt)),
                   d.warehouseStocks.map (fun w => w.quantity))))
      = some ([("completed", some 9)], [10]) :=
  ⟨rfl, rfl⟩

/-- Counterexample for C6: creating an order for 2 units of the 999-priced
product of `dbS6` returns in-memory items carrying price 999 and total 1998,
but the persisted `order_items` row holds only (order_id, product_id,
quantity) — reading the items back yields price 0: the price snapshot is not
persisted. -/
theorem createOrder_price_not_persisted :
    ((createOrder dbS6 1 [{ productId := 1, quantity := 2 }]).toOption.map
        (fun r => (r.2.orderItems,
                   (getOrderItems r.2 1).map (fun v => v.price),
                   r.1.items.map (fun v => v.price))))
      = some ([{ id := 1, orderId := 1, productId := 1, quantity := 2 }], [0], [999])
    ∧ priceOf dbS6 1 = 999 :=
  ⟨by decide, by decide⟩

theorem processSourceStep_eq_transferSourceStep :
    processSourceStep = transferSourceStep := rfl

theorem processDestStep_eq_transferDestStep :
    processDestStep = transferDestStep := rfl

theorem transferSourceStep_setTransferRow (db : DB) (i : Nat) (s : String) (c : Option Nat)
    (f : Option Nat) (p : Nat) (q : Int) :
    transferSourceStep (setTransferRow db i s c) f p q
      = (transferSourceStep db f p q).map (fun d => setTransferRow d i s c) := by
  cases f with
  | none => rfl
  | some w =>
    simp only [transferSourceStep]
    rw [show findWarehouseStock (setTransferRow db i s c) w p = findWarehouseStock db w p
        from rfl]
    cases hf : findWarehouseStock db w p with
    | none => rfl
    | some ws =>
      by_cases hq : ws.quantity < q
      · simp only [if_pos hq]; rfl
      · simp only [if_neg hq]; rfl

theorem transferDestStep_setTransferRow (db : DB) (i : Nat) (s : String) (c : Option Nat)
    (t : Option Nat) (p : Nat) (q : Int) :
    transferDestStep (setTransferRow db i s c) t p q
      = (transferDestStep db t p q).map (fun d => setTransferRow d i s c) := by
  cases t with
  | none => rfl
  | some w =>
    simp only [transferDestStep]
    rw [show findWarehouseStock (setTransferRow db i s c) w p = findWarehouseStock db w p
        from rfl]
    cases hb : (findWarehouseStock db w p).isSome <;> rfl

/-- Claim C3, amended: the two entry points agree ONLY on pending transfers:
for a pending transfer, `UpdateTransferStatus(id, "completed")` and
`ProcessTransfer(id)` return identical results and identical states (same
stock movements, same completion mark, same errors).  On a non-pending
transfer, however, `UpdateTransferStatus` never raises `TransferNotPending`:
on an already-completed transfer it is a no-op success, and on a failed or
cancelled transfer it flips the status to completed without moving any
stock, while `ProcessTransfer` rejects. -/
theorem transfer_entry_points_agree_on_pending :
    ∀ (db : DB) (transferId : Nat) (t : TransferRow),
      findTransfer db transferId = some t → t.status = "pending" →
      updateTransferStatus db transferId "completed" = processTransfer db transferId := by
  intro db tid t hf hs
  simp only [updateTransferStatus, processTransfer, hf, hs]
  simp only [show ("pending" = "completed") = False by simp,
    show ("completed" = "completed") = True by simp,
    show ("pending" = "pending") = True by simp, if_false, ite_true, ite_false,
    not_true, and_true, true_or, if_true]
  rw [processSourceStep_eq_transferSourceStep, processDestStep_eq_transferDestStep,
    transferSourceStep_setTransferRow]
  cases hs1 : transferSourceStep db t.fromWarehouseId t.productId t.quantity with
  | error e => rfl
  | ok d1 =>
    simp only [Except.map]
    rw [transferDestStep_setTransferRow]
    cases hs2 : transferDestStep d1 t.toWarehouseId t.productId t.quantity with
    | error e => rfl
    | ok d2 => rfl

/-- Witness for C3: on the pending transfer of `dbS3p` the two entry points
produce identical results; evaluated, both move 4 units from warehouse 1 to
the freshly created stock row of warehouse 2. -/
theorem transfer_entry_points_agree_on_pending_witness :
    updateTransferStatus dbS3p 1 "completed" = processTransfer dbS3p 1
    ∧ ((processTransfer dbS3p 1).toOption.map
        (fun d => d.warehouseStocks.map (fun w => (w.warehouseId, w.quantity))))
      = some [(1, 6), (2, 4)] :=
  ⟨transfer_entry_points_agree_on_pending dbS3p 1
      { id := 1, fromWarehouseId := some 1, toWarehouseId := some 2, productId := 1,
        quantity := 4, status := "pending", requestedBy := 1, completedAt := none }
      rfl rfl,
   rfl⟩

theorem updateWarehouseStock_decrease_ok (db : DB) (productId : Nat) (q : Int) (db' : DB)
    (h : updateWarehouseStock db productId q "decrease" = .ok db') :
    ∃ chosen,
      selectTop ((stocksFor db productId).filter (fun r => decide (q ≤ r.quantity)))
          = some chosen
      ∧ db'.warehouseStocks = db.warehouseStocks.map (fun r =>
          if r.productId == productId && r.warehouseId == chosen.warehouseId then
            { r with quantity := r.quantity - q } else r)
      ∧ db'.products = db.products.map (fun p =>
          if p.id == productId then { p with stock := p.stock - q } else p)
      ∧ db'.orders = db.orders ∧ db'.orderItems = db.orderItems
      ∧ db'.transfers = db.transfers := by
  cases hsel : selectTop ((stocksFor db productId).filter (fun r => decide (q ≤ r.quantity))) with
  | none =>
    have hres : updateWarehouseStock db productId q "decrease" = .error .noRows := by
      unfold updateWarehouseStock
      rw [hsel]
      rfl
    rw [hres] at h
    exact Except.noConfusion h
  | some chosen =>
    have hres : updateWarehouseStock db productId q "decrease"
        = .ok { db with
            warehouseStocks := db.warehouseStocks.map (fun r =>
              if r.productId == productId && r.warehouseId == chosen.warehouseId then
                { r with quantity := r.quantity - q } else r),
            products := db.products.map (fun p =>
              if p.id == productId then { p with stock := p.stock - q } else p) } := by
      unfold updateWarehouseStock
      rw [hsel]
      rfl
    rw [hres] at h
    injection h with h
    subst h
    exact ⟨chosen, rfl, rfl, rfl, rfl, rfl, rfl⟩

theorem updateWarehouseStock_increase_ok (db : DB) (productId : Nat) (q : Int) (db' : DB)
    (h : updateWarehouseStock db productId q "increase" = .ok db') :
    ∃ wid,
      db'.warehouseStocks = db.warehouseStocks.map (fun r =>
        if r.productId == productId && r.warehouseId == wid then
          { r with quantity := r.quantity + q } else r)
      ∧ db'.products = db.products.map (fun p =>
          if p.id == productId then { p with stock := p.stock + q } else p)
      ∧ db'.orders = db.orders ∧ db'.orderItems = db.orderItems
      ∧ db'.transfers = db.transfers := by
  cases hfp : db.products.find? (fun p => p.id == productId) with
  | some p =>
    have hres : updateWarehouseStock db productId q "increase"
        = .ok { db with
            warehouseStocks := db.warehouseStocks.map (fun r =>
              if r.productId == productId && r.warehouseId == p.warehouseId then
                { r with quantity := r.quantity + q } else r),
            products := db.products.map (fun pr =>
              if pr.id == productId then { pr with stock := pr.stock + q } else pr) } := by
      unfold updateWarehouseStock
      rw [hfp]
      rfl
    rw [hres] at h
    injection h with h
    subst h
    exact ⟨p.warehouseId, rfl, rfl, rfl, rfl, rfl⟩
  | none =>
    cases hws : db.warehouseStocks.find? (fun ws => ws.productId == productId) with
    | none =>
      have hres : updateWarehouseStock db productId q "increase" = .error .noRows := by
        unfold updateWarehouseStock
        rw [hfp, hws]
        rfl
      rw [hres] at h
      exact Except.noConfusion h
    | some ws =>
      have hres : updateWarehouseStock db productId q "increase"
          = .ok { db with
              warehouseStocks := db.warehouseStocks.map (fun r =>
                if r.productId == productId && r.warehouseId == ws.warehouseId then
                  { r with quantity := r.quantity + q } else r),
              products := db.products.map (fun pr =>
                if pr.id == productId then { pr with stock := pr.stock + q } else pr) } := by
        unfold updateWarehouseStock
        rw [hfp, hws]
        rfl
      rw [hres] at h
      injection h with h
      subst h
      exact ⟨ws.warehouseId, rfl, rfl, rfl, rfl, rfl⟩

theorem processSourceStep_ok (db : DB) (f : Option Nat) (p : Nat) (q : Int) (db' : DB)
    (h : processSourceStep db f p q = .ok db') :
    (f = none ∧ db' = db)
    ∨ ∃ w ws, f = some w ∧ findWarehouseStock db w p = some ws ∧ q ≤ ws.quantity
        ∧ db'.warehouseStocks = db.warehouseStocks.map (fun r =>
            if r.warehouseId == w && r.productId == p then
              { r with quantity := r.quantity - q } else r)
        ∧ db'.products = db.products.map (fun pr =>
            if pr.id == p then { pr with stock := pr.stock - q } else pr)
        ∧ db'.orders = db.orders ∧ db'.orderItems = db.orderItems
        ∧ db'.transfers = db.transfers := by
  cases f with
  | none =>
    injection h with h
    exact Or.inl ⟨rfl, h.symm⟩
  | some w =>
    cases hfw : findWarehouseStock db w p with
    | none =>
      have hres : processSourceStep db (some w) p q
          = .error (.insufficientStock w p q 0) := by
        simp only [processSourceStep]
        rw [hfw]
      rw [hres] at h
      exact Except.noConfusion h
    | some ws =>
      by_cases hq : ws.quantity < q
      · have hres : processSourceStep db (some w) p q
            = .error (.insufficientStock w p q ws.quantity) := by
          simp only [processSourceStep, hfw]
          rw [if_pos hq]
        rw [hres] at h
        exact Except.noConfusion h
      · have hres : processSourceStep db (some w) p q
            = .ok { db with
                warehouseStocks := db.warehouseStocks.map (fun r =>
                  if r.warehouseId == w && r.productId == p then
                    { r with quantity := r.quantity - q } else r),
                products := db.products.map (fun pr =>
                  if pr.id == p then { pr with stock := pr.stock - q } else pr) } := by
          simp only [processSourceStep, hfw]
          rw [if_neg hq]
        rw [hres] at h
        injection h with h
        subst h
        exact Or.inr ⟨w, ws, rfl, hfw, le_of_not_lt hq, rfl, rfl, rfl, rfl, rfl⟩

theorem processDestStep_ok (db : DB) (t : Option Nat) (p : Nat) (q : Int) (db' : DB)
    (h : processDestStep db t p q = .ok db') :
    (t = none ∧ db' = db)
    ∨ ∃ w, t = some w
        ∧ (db'.warehouseStocks = db.warehouseStocks.map (fun r =>
              if r.warehouseId == w && r.productId == p then
                { r with quantity := r.quantity + q } else r)
           ∨ db'.warehouseStocks = db.warehouseStocks
              ++ [{ warehouseId := w, productId := p, quantity := q, reservedQuantity := 0 }])
        ∧ db'.products = db.products.map (fun pr =>
            if pr.id == p then { pr with stock := pr.stock + q } else pr)
        ∧ db'.orders = db.orders ∧ db'.orderItems = db.orderItems
        ∧ db'.transfers = db.transfers := by
  cases t with
  | none =>
    injection h with h
    exact Or.inl ⟨rfl, h.symm⟩
  | some w =>
    by_cases hb : (findWarehouseStock db w p).isSome = true
    · have hres : processDestStep db (some w) p q
          = .ok { db with
              warehouseStocks := db.warehouseStocks.map (fun r =>
                if r.warehouseId == w && r.productId == p then
                  { r with quantity := r.quantity + q } else r),
              products := db.products.map (fun pr =>
                if pr.id == p then { pr with stock := pr.stock + q } else pr) } := by
        simp only [processDestStep]
        rw [if_pos hb]
      rw [hres] at h
      injection h with h
      subst h
      exact Or.inr ⟨w, rfl, Or.inl rfl, rfl, rfl, rfl, rfl⟩
    · have hres : processDestStep db (some w) p q
          = .ok { db with
              warehouseStocks := db.warehouseStocks
                ++ [{ warehouseId := w, productId := p, quantity := q, reservedQuantity := 0 }],
              products := db.products.map (fun pr =>
                if pr.id == p then { pr with stock := pr.stock + q } else pr) } := by
        simp only [processDestStep]
        rw [if_neg hb]
      rw [hres] at h
      injection h with h
      subst h
      exact Or.inr ⟨w, rfl, Or.inr rfl, rfl, rfl, rfl, rfl⟩

theorem processTransfer_ok (db : DB) (transferId : Nat) (db' : DB)
    (h : processTransfer db transferId = .ok db') :
    ∃ t db1 db2, findTransfer db transferId = some t ∧ t.status = "pending"
      ∧ processSourceStep db t.fromWarehouseId t.productId t.quantity = .ok db1
      ∧ processDestStep db1 t.toWarehouseId t.productId t.quantity = .ok db2
      ∧ db' = setTransferRow db2 transferId "completed" (some db.now) := by
  cases hft : findTransfer db transferId with
  | none =>
    have hres : processTransfer db transferId = .error .noRows := by
      unfold processTransfer
      rw [hft]
    rw [hres] at h
    exact Except.noConfusion h
  | some t =>
    by_cases hp : t.status = "pending"
    · simp only [processTransfer, hft, if_neg (not_not_intro hp)] at h
      cases hs1 : processSourceStep db t.fromWarehouseId t.productId t.quantity with
      | error e =>
        rw [hs1] at h
        exact Except.noConfusion h
      | ok d1 =>
        rw [hs1] at h
        cases hs2 : processDestStep d1 t.toWarehouseId t.productId t.quantity with
        | error e =>
          simp only [hs2] at h
          exact Except.noConfusion h
        | ok d2 =>
          simp only [hs2] at h
          injection h with h
          exact ⟨t, d1, d2, rfl, hp, hs1, hs2, h.symm⟩
    · have hres : processTransfer db transferId
          = .error (.transferNotPending transferId t.status) := by
        simp only [processTransfer, hft]
        rw [if_pos hp]
      rw [hres] at h
      exact Except.noConfusion h

theorem nonneg_map_sub (l : List WarehouseStockRow) (c : WarehouseStockRow → Bool) (q : Int)
    (hU : wsKeyUnique l) (hpos : ∀ w ∈ l, 0 ≤ w.quantity)
    (chosen : WarehouseStockRow) (hmem : chosen ∈ l)
    (hc : ∀ r, c r = true → r.warehouseId = chosen.warehouseId ∧ r.productId = chosen.productId)
    (hq : q ≤ chosen.quantity) :
    ∀ w ∈ l.map (fun r => if c r then { r with quantity := r.quantity - q } else r),
      0 ≤ w.quantity := by
  intro w hw
  obtain ⟨r, hr, rfl⟩ := List.mem_map.mp hw
  by_cases hcr : c r = true
  · rw [if_pos hcr]
    show 0 ≤ r.quantity - q
    have hre : r = chosen := hU r hr chosen hmem (hc r hcr).1 (hc r hcr).2
    rw [hre]
    exact sub_nonneg.mpr hq
  · rw [if_neg hcr]
    exact hpos r hr

theorem nonneg_map_add (l : List WarehouseStockRow) (c : WarehouseStockRow → Bool) (q : Int)
    (hpos : ∀ w ∈ l, 0 ≤ w.quantity) (hq : 0 ≤ q) :
    ∀ w ∈ l.map (fun r => if c r then { r with quantity := r.quantity + q } else r),
      0 ≤ w.quantity := by
  intro w hw
  obtain ⟨r, hr, rfl⟩ := List.mem_map.mp hw
  by_cases hcr : c r = true
  · rw [if_pos hcr]
    show 0 ≤ r.quantity + q
    exact add_nonneg (hpos r hr) hq
  · rw [if_neg hcr]
    exact hpos r hr

theorem reserved_zero_map (l : List WarehouseStockRow) (c : WarehouseStockRow → Bool)
    (g : WarehouseStockRow → Int) (h0 : ∀ r ∈ l, r.reservedQuantity = 0) :
    ∀ w ∈ l.map (fun r => if c r then { r with quantity := g r } else r),
      w.reservedQuantity = 0 := by
  intro w hw
  obtain ⟨r, hr, rfl⟩ := List.mem_map.mp hw
  by_cases hcr : c r = true
  · rw [if_pos hcr]
    exact h0 r hr
  · rw [if_neg hcr]
    exact h0 r hr

/-- Claim C5, amended: the engine preserves non-negativity of RAW quantities
(decrements only draw from a row whose raw quantity covers the amount), but
it checks raw quantity only — reservations are ignored — so
available = quantity − reserved_quantity CAN go negative when
reserved_quantity > 0 (see the counterexample).  Only when every
reserved_quantity is 0 does available ≥ 0 hold after a warehouse-stock
decrement and after transfer processing.  Hypotheses: the UNIQUE
(warehouse_id, product_id) schema constraint, non-negative starting
quantities, and non-negative transfer quantities. -/
theorem stock_mutations_preserve_nonneg_quantity :
    ∀ (db : DB) (productId transferId : Nat) (q : Int),
      wsKeyUnique db.warehouseStocks →
      (∀ w ∈ db.warehouseStocks, 0 ≤ w.quantity) →
      (∀ t ∈ db.transfers, 0 ≤ t.quantity) →
      (∀ w ∈ (commitOr (updateWarehouseStock db productId q "decrease") db).warehouseStocks,
          0 ≤ w.quantity)
      ∧ (∀ w ∈ (commitOr (processTransfer db transferId) db).warehouseStocks,
          0 ≤ w.quantity)
      ∧ ((∀ r ∈ db.warehouseStocks, r.reservedQuantity = 0) →
          (∀ w ∈ (commitOr (updateWarehouseStock db productId q "decrease") db).warehouseStocks,
              0 ≤ availableOf w)
          ∧ (∀ w ∈ (commitOr (processTransfer db transferId) db).warehouseStocks,
              0 ≤ availableOf w)) := by
  intro db pid tid q hU hpos htr
  have hdec : (∀ w ∈ (commitOr (updateWarehouseStock db pid q "decrease") db).warehouseStocks,
        0 ≤ w.quantity)
      ∧ ((∀ r ∈ db.warehouseStocks, r.reservedQuantity = 0) →
          ∀ w ∈ (commitOr (updateWarehouseStock db pid q "decrease") db).warehouseStocks,
            w.reservedQuantity = 0) := by
    cases hres : updateWarehouseStock db pid q "decrease" with
    | error e => exact ⟨hpos, fun h0 => h0⟩
    | ok db' =>
      obtain ⟨chosen, hsel, hws, -, -, -, -⟩ :=
        updateWarehouseStock_decrease_ok db pid q db' hres
      have hmf := List.mem_filter.mp (selectTop_mem hsel)
      have hmf2 := List.mem_filter.mp hmf.1
      have hq : q ≤ chosen.quantity := of_decide_eq_true hmf.2
      have hcpid : chosen.productId = pid := by
        have := hmf2.2
        simpa using this
      constructor
      · intro w hw
        have hw' : w ∈ db'.warehouseStocks := hw
        rw [hws] at hw'
        refine nonneg_map_sub db.warehouseStocks _ q hU hpos chosen hmf2.1 ?_ hq w hw'
        intro r hr
        rw [Bool.and_eq_true] at hr
        have h1 : r.productId = pid := by simpa using hr.1
        have h2 : r.warehouseId = chosen.warehouseId := by simpa using hr.2
        exact ⟨h2, h1.trans hcpid.symm⟩
      · intro h0 w hw
        have hw' : w ∈ db'.warehouseStocks := hw
        rw [hws] at hw'
        exact reserved_zero_map db.warehouseStocks _ _ h0 w hw'
  have hpt : (∀ w ∈ (commitOr (processTransfer db tid) db).warehouseStocks,
        0 ≤ w.quantity)
      ∧ ((∀ r ∈ db.warehouseStocks, r.reservedQuantity = 0) →
          ∀ w ∈ (commitOr (processTransfer db tid) db).warehouseStocks,
            w.reservedQuantity = 0) := by
    cases hres : processTransfer db tid with
    | error e => exact ⟨hpos, fun h0 => h0⟩
    | ok db' =>
      obtain ⟨t, d1, d2, hft, -, hs1, hs2, hdb'⟩ := processTransfer_ok db tid db' hres
      have htq : 0 ≤ t.quantity := htr t (List.mem_of_find?_eq_some hft)
      have h1 : (∀ w ∈ d1.warehouseStocks, 0 ≤ w.quantity)
          ∧ ((∀ r ∈ db.warehouseStocks, r.reservedQuantity = 0) →
              ∀ w ∈ d1.warehouseStocks, w.reservedQuantity = 0) := by
        rcases processSourceStep_ok db _ _ _ d1 hs1 with ⟨-, rfl⟩ |
          ⟨w0, ws0, -, hfw, hq0, hws1, -, -, -, -⟩
        · exact ⟨hpos, fun h0 => h0⟩
        · have hwsmem : ws0 ∈ db.warehouseStocks := List.mem_of_find?_eq_some hfw
          have hpred := List.find?_some hfw
          rw [Bool.and_eq_true] at hpred
          have hpw : ws0.warehouseId = w0 := by simpa using hpred.1
          have hpp : ws0.productId = t.productId := by simpa using hpred.2
          constructor
          · intro w hw
            rw [hws1] at hw
            refine nonneg_map_sub db.warehouseStocks _ t.quantity hU hpos ws0 hwsmem
              ?_ hq0 w hw
            intro r hr
            rw [Bool.and_eq_true] at hr
            have h1 : r.warehouseId = w0 := by simpa using hr.1
            have h2 : r.productId = t.productId := by simpa using hr.2
            exact ⟨h1.trans hpw.symm, h2.trans hpp.symm⟩
          · intro h0 w hw
            rw [hws1] at hw
            exact reserved_zero_map db.warehouseStocks _ _ h0 w hw
      have h2 : (∀ w ∈ d2.warehouseStocks, 0 ≤ w.quantity)
          ∧ ((∀ r ∈ db.warehouseStocks, r.reservedQuantity = 0) →
              ∀ w ∈ d2.warehouseStocks, w.reservedQuantity = 0) := by
        rcases processDestStep_ok d1 _ _ _ d2 hs2 with ⟨-, rfl⟩ |
          ⟨w0, -, hws2, -, -, -, -⟩
        · exact h1
        · rcases hws2 with hmap | happ
          · constructor
            · intro w hw
              rw [hmap] at hw
              exact nonneg_map_add d1.warehouseStocks _ t.quantity h1.1 htq w hw
            · intro h0 w hw
              rw [hmap] at hw
              exact reserved_zero_map d1.warehouseStocks _ _ (h1.2 h0) w hw
          · constructor
            · intro w hw
              rw [happ] at hw
              rcases List.mem_append.mp hw with hin | hin
              · exact h1.1 w hin
              · rw [List.mem_singleton.mp hin]
                exact htq
            · intro h0 w hw
              rw [happ] at hw
              rcases List.mem_append.mp hw with hin | hin
              · exact h1.2 h0 w hin
              · rw [List.mem_singleton.mp hin]
      constructor
      · intro w hw
        have hw' : w ∈ db'.warehouseStocks := hw
        rw [hdb'] at hw'
        exact h2.1 w hw'
      · intro h0 w hw
        have hw' : w ∈ db'.warehouseStocks := hw
        rw [hdb'] at hw'
        exact h2.2 h0 w hw'
  refine ⟨hdec.1, hpt.1, fun h0 => ⟨?_, ?_⟩⟩
  · intro w hw
    have hz := hdec.2 h0 w hw
    unfold availableOf
    rw [hz, sub_zero]
    exact hdec.1 w hw
  · intro w hw
    have hz := hpt.2 h0 w hw
    unfold availableOf
    rw [hz, sub_zero]
    exact hpt.1 w hw

/-- Witness for C5: the amended preservation statement evaluated on `dbS6`
(single fully-unreserved stock row, decrement of 5). -/
theorem stock_mutations_preserve_nonneg_quantity_witness :
    wsKeyUnique dbS6.warehouseStocks
    ∧ (∀ w ∈ dbS6.warehouseStocks, 0 ≤ w.quantity)
    ∧ (∀ t ∈ dbS6.transfers, 0 ≤ t.quantity)
    ∧ (∀ w ∈ (commitOr (updateWarehouseStock dbS6 1 5 "decrease") dbS6).warehouseStocks,
        0 ≤ w.quantity) :=
  ⟨by unfold wsKeyUnique; decide, by decide, by decide,
   (stock_mutations_preserve_nonneg_quantity dbS6 1 1 5 (by unfold wsKeyUnique; decide)
      (by decide) (by decide)).1⟩

/-- Counterexample for C2: in `dbS2` product 1's home warehouse is 1 but
its largest pile (10 units) sits in warehouse 2.  Confirming the 3-unit
order decrements warehouse 2 (highest raw quantity), cancelling credits the
HOME warehouse 1 — so although `products.stock` returns to 15, the
per-warehouse quantities end at (8, 7) instead of the original (5, 10):
the restore does not use the decrement's location resolution. -/
theorem confirm_cancel_not_restore_warehouse_rows :
    (updateOrderStatus dbS2 1 1 "confirmed").1 = .ok ()
    ∧ (updateOrderStatus dbS2conf 1 1 "cancelled").1 = .ok ()
    ∧ dbS2.warehouseStocks.map (fun w => (w.warehouseId, w.quantity)) = [(1, 5), (2, 10)]
    ∧ dbS2round.warehouseStocks.map (fun w => (w.warehouseId, w.quantity)) = [(1, 8), (2, 7)]
    ∧ dbS2round.warehouseStocks ≠ dbS2.warehouseStocks
    ∧ dbS2round.products.map (fun p => p.stock) = [15] :=
  ⟨rfl, rfl, rfl, rfl, by decide, rfl⟩

theorem confirmItems_ok_effects :
    ∀ (items : List OrderItemView) (db db' : DB),
      confirmItems db items = (.ok (), db') →
      db'.products = db.products.map (fun p =>
        { p with stock := p.stock - itemsQty items p.id })
      ∧ db'.orders = db.orders ∧ db'.orderItems = db.orderItems := by
  intro items
  induction items with
  | nil =>
    intro db db' h
    simp only [confirmItems] at h
    injection h with h1 h2
    subst h2
    refine ⟨?_, rfl, rfl⟩
    have hfun : ∀ p ∈ db.products,
        ({ p with stock := p.stock - itemsQty [] p.id }) = p := by
      intro p _
      show ({ p with stock := p.stock - 0 }) = p
      rw [sub_zero]
    rw [List.map_congr_left hfun]
    exact (List.map_id' db.products).symm
  | cons i rest ih =>
    intro db db' h
    simp only [confirmItems] at h
    cases hc : checkWarehouseStock db i.productId i.quantity with
    | error e =>
      rw [hc] at h
      cases e <;> simp at h
    | ok w =>
      simp only [hc] at h
      cases hu : updateWarehouseStock db i.productId i.quantity "decrease" with
      | error e =>
        simp [hu] at h
      | ok db1 =>
        simp only [hu] at h
        obtain ⟨hp1, ho1, hi1⟩ := ih db1 db' h
        obtain ⟨chosen, -, -, hprods, hords, hitems, -⟩ :=
          updateWarehouseStock_decrease_ok db i.productId i.quantity db1 hu
        refine ⟨?_, ?_, ?_⟩
        · rw [hp1, hprods, List.map_map]
          apply List.map_congr_left
          intro p _
          simp only [Function.comp]
          by_cases hpe : p.id = i.productId
          · rw [if_pos (beq_iff_eq.mpr hpe)]
            show ({ p with stock := p.stock - i.quantity - itemsQty rest p.id } : ProductRow)
                = { p with stock := p.stock - itemsQty (i :: rest) p.id }
            rw [sub_sub]
            simp only [itemsQty, if_pos hpe.symm]
          · rw [if_neg (fun hT => hpe (beq_iff_eq.mp hT))]
            show ({ p with stock := p.stock - itemsQty rest p.id } : ProductRow)
                = { p with stock := p.stock - itemsQty (i :: rest) p.id }
            simp only [itemsQty, if_neg (fun hh : i.productId = p.id => hpe hh.symm), zero_add]
        · rw [ho1, hords]
        · rw [hi1, hitems]

theorem restoreItems_ok_effects :
    ∀ (items : List OrderItemView) (db db' : DB),
      restoreItems db items = (.ok (), db') →
      db'.products = db.products.map (fun p =>
        { p with stock := p.stock + itemsQty items p.id })
      ∧ db'.orders = db.orders ∧ db'.orderItems = db.orderItems := by
  intro items
  induction items with
  | nil =>
    intro db db' h
    simp only [restoreItems] at h
    injection h with h1 h2
    subst h2
    refine ⟨?_, rfl, rfl⟩
    have hfun : ∀ p ∈ db.products,
        ({ p with stock := p.stock + itemsQty [] p.id }) = p := by
      intro p _
      show ({ p with stock := p.stock + 0 }) = p
      rw [add_zero]
    rw [List.map_congr_left hfun]
    exact (List.map_id' db.products).symm
  | cons i rest ih =>
    intro db db' h
    simp only [restoreItems] at h
    cases hu : updateWarehouseStock db i.productId i.quantity "increase" with
    | error e =>
      simp [hu] at h
    | ok db1 =>
      simp only [hu] at h
      obtain ⟨hp1, ho1, hi1⟩ := ih db1 db' h
      obtain ⟨wid, -, hprods, hords, hitems, -⟩ :=
        updateWarehouseStock_increase_ok db i.productId i.quantity db1 hu
      refine ⟨?_, ?_, ?_⟩
      · rw [hp1, hprods, List.map_map]
        apply List.map_congr_left
        intro p _
        simp only [Function.comp]
        by_cases hpe : p.id = i.productId
        · rw [if_pos (beq_iff_eq.mpr hpe)]
          show ({ p with stock := p.stock + i.quantity + itemsQty rest p.id } : ProductRow)
              = { p with stock := p.stock + itemsQty (i :: rest) p.id }
          rw [add_assoc]
          simp only [itemsQty, if_pos hpe.symm]
        · rw [if_neg (fun hT => hpe (beq_iff_eq.mp hT))]
          show ({ p with stock := p.stock + itemsQty rest p.id } : ProductRow)
              = { p with stock := p.stock + itemsQty (i :: rest) p.id }
          simp only [itemsQty, if_neg (fun hh : i.productId = p.id => hpe hh.symm), zero_add]
      · rw [ho1, hords]
      · rw [hi1, hitems]

theorem getOrderItems_congr (db db' : DB) (orderId : Nat) (f : ProductRow → ProductRow)
    (hid : ∀ p, (f p).id = p.id) (hname : ∀ p, (f p).name = p.name)
    (hdesc : ∀ p, (f p).description = p.description)
    (hprod : db'.products = db.products.map f)
    (hitems : db'.orderItems = db.orderItems) :
    getOrderItems db' orderId = getOrderItems db orderId := by
  unfold getOrderItems
  rw [hitems]
  apply List.filterMap_congr
  intro it _
  have hfind : findProduct db' it.productId = (findProduct db it.productId).map f := by
    unfold findProduct
    rw [hprod]
    exact find?_map_of_pred f (fun p => p.id == it.productId)
      (fun a => by
        show ((f a).id == it.productId) = (a.id == it.productId)
        rw [hid a]) db.products
  rw [hfind]
  cases findProduct db it.productId with
  | none => rfl
  | some p =>
    simp only [Option.map]
    rw [hname p, hdesc p]

theorem findOrderRow_congr (db db' : DB) (orderId userId : Nat)
    (h : db'.orders = db.orders) :
    findOrderRow db' orderId userId = findOrderRow db orderId userId := by
  unfold findOrderRow
  rw [h]

theorem findOrderRow_setOrderStatus (db : DB) (orderId userId : Nat) (s : String) :
    findOrderRow (setOrderStatus db orderId userId s) orderId userId
      = (findOrderRow db orderId userId).map (fun o =>
          if o.id == orderId && o.userId == userId then { o with status := s } else o) := by
  unfold findOrderRow setOrderStatus
  show (db.orders.map (fun o =>
      if o.id == orderId && o.userId == userId then { o with status := s } else o)).find?
        (fun o => o.id == orderId && o.userId == userId)
    = (db.orders.find? (fun o => o.id == orderId && o.userId == userId)).map (fun o =>
        if o.id == orderId && o.userId == userId then { o with status := s } else o)
  apply find?_map_of_pred
  intro o
  by_cases hc : (o.id == orderId && o.userId == userId) = true
  · rw [if_pos hc]
  · rw [if_neg hc]

theorem setOrderStatus_products (db : DB) (orderId userId : Nat) (s : String) :
    (setOrderStatus db orderId userId s).products = db.products := rfl

theorem setOrderStatus_orderItems (db : DB) (orderId userId : Nat) (s : String) :
    (setOrderStatus db orderId userId s).orderItems = db.orderItems := rfl

/-- Claim C2, amended: confirming a pending order and then cancelling it
restores every `Product.stock` to its exact pre-confirmation value — the
whole products table is unchanged by the round trip — but NOT the
per-warehouse quantities, and not with the same location resolution (see the
counterexample: the decrement draws from the fullest warehouse while the
restore credits the product's home warehouse). -/
theorem confirm_cancel_restores_product_stock :
    ∀ (db : DB) (orderId userId : Nat) (ord : OrderRow) (db1 db2 : DB),
      findOrderRow db orderId userId = some ord → ord.status = "pending" →
      updateOrderStatus db orderId userId "confirmed" = (.ok (), db1) →
      updateOrderStatus db1 orderId userId "cancelled" = (.ok (), db2) →
      db2.products = db.products := by
  intro db oid uid ord db1 db2 hford hpend h1 h2
  have hford' : db.orders.find? (fun o => o.id == oid && o.userId == uid) = some ord := hford
  have hpred := List.find?_some hford'
  -- unpack the confirmation call
  simp only [updateOrderStatus, hford, hpend, ne_eq, not_false_eq_true, true_and,
    and_true, if_true, if_false] at h1
  cases hcf : confirmItems db (getOrderItems db oid) with
  | mk res dbx =>
    rw [hcf] at h1
    cases res with
    | error e => simp at h1
    | ok u =>
      cases u
      simp only [] at h1
      have hdb1 : db1 = setOrderStatus dbx oid uid "confirmed" := by
        have := congrArg Prod.snd h1
        exact this.symm
      obtain ⟨hpx, hox, hix⟩ := confirmItems_ok_effects (getOrderItems db oid) db dbx hcf
      -- the order as seen by the cancellation call
      have hford1 : findOrderRow db1 oid uid = some { ord with status := "confirmed" } := by
        rw [hdb1, findOrderRow_setOrderStatus, findOrderRow_congr db dbx oid uid hox, hford]
        simp only [Option.map]
        rw [if_pos hpred]
      -- the item list is unchanged between the two calls
      have hgoi : getOrderItems db1 oid = getOrderItems db oid := by
        refine getOrderItems_congr db db1 oid
          (fun p => { p with stock := p.stock - itemsQty (getOrderItems db oid) p.id })
          (fun p => rfl) (fun p => rfl) (fun p => rfl) ?_ ?_
        · rw [hdb1, setOrderStatus_products, hpx]
        · rw [hdb1, setOrderStatus_orderItems, hix]
      -- unpack the cancellation call
      simp only [updateOrderStatus, hford1, ne_eq, not_false_eq_true, not_true_eq_false,
        true_and, and_true, false_and, and_false, true_or, or_true, or_false, false_or,
        if_true, if_false] at h2
      rw [hgoi] at h2
      cases hrs : restoreItems db1 (getOrderItems db oid) with
      | mk res2 dby =>
        rw [hrs] at h2
        cases res2 with
        | error e => simp at h2
        | ok u2 =>
          cases u2
          simp only [] at h2
          have hdb2 : db2 = setOrderStatus dby oid uid "cancelled" := by
            have := congrArg Prod.snd h2
            exact this.symm
          obtain ⟨hpy, -, -⟩ :=
            restoreItems_ok_effects (getOrderItems db oid) db1 dby hrs
          rw [hdb2, setOrderStatus_products, hpy, hdb1, setOrderStatus_products, hpx,
            List.map_map]
          have hptwise : ∀ p ∈ db.products,
              ((fun p => { p with stock := p.stock + itemsQty (getOrderItems db oid) p.id }) ∘
                (fun p => { p with stock := p.stock - itemsQty (getOrderItems db oid) p.id }))
                  p = p := by
            intro p _
            simp only [Function.comp]
            show ({ p with
                stock := p.stock - itemsQty (getOrderItems db oid) p.id
                  + itemsQty (getOrderItems db oid) p.id } : ProductRow) = p
            rw [sub_add_cancel]
          rw [List.map_congr_left hptwise]
          exact List.map_id' db.products

/-- Witness for C2: the round trip on `dbS2` restores the products table
exactly. -/
theorem confirm_cancel_restores_product_stock_witness :
    dbS2round.products = dbS2.products :=
  confirm_cancel_restores_product_stock dbS2 1 1
    { id := 1, userId := 1, totalAmount := 30, status := "pending" }
    dbS2conf dbS2round rfl rfl rfl rfl

theorem priceOf_products_eq (db db' : DB) (h : db.products = db'.products) :
    priceOf db = priceOf db' := by
  funext pid
  unfold priceOf findProduct
  rw [h]

theorem itemsTotal_products_eq (db db' : DB) (h : db.products = db'.products) :
    ∀ items, itemsTotal db items = itemsTotal db' items := by
  intro items
  induction items with
  | nil => rfl
  | cons i rest ih =>
    simp only [itemsTotal]
    rw [priceOf_products_eq db db' h, ih]

theorem insertItems_ok_effects :
    ∀ (items : List CreateOrderItemRequest) (db : DB) (orderId : Nat)
      (db2 : DB) (views : List OrderItemView) (total : Rat),
      insertItems db orderId items = .ok (db2, views, total) →
      db2.orderItems = db.orderItems ++ insertedRows db.nextItemId orderId items
      ∧ db2.orders = db.orders ∧ db2.products = db.products
      ∧ db2.warehouseStocks = db.warehouseStocks
      ∧ views.map (fun v => v.price) = items.map (fun i => priceOf db i.productId)
      ∧ views.map (fun v => v.quantity) = items.map (fun i => i.quantity)
      ∧ total = itemsTotal db items := by
  intro items
  induction items with
  | nil =>
    intro db oid db2 views total h
    simp only [insertItems] at h
    injection h with h
    injection h with hA h
    injection h with hB hC
    subst hA
    subst hB
    subst hC
    exact ⟨(List.append_nil db.orderItems).symm, rfl, rfl, rfl, rfl, rfl, rfl⟩
  | cons i rest ih =>
    intro db oid db2 views total h
    simp only [insertItems] at h
    cases hp : findProduct db i.productId with
    | none => simp [hp] at h
    | some p =>
      simp only [hp] at h
      cases hrec : insertItems { db with
          orderItems := db.orderItems ++
            [{ id := db.nextItemId, orderId := oid, productId := i.productId,
               quantity := i.quantity }],
          nextItemId := db.nextItemId + 1 } oid rest with
      | error e =>
        simp only [hrec] at h
        exact Except.noConfusion h
      | ok trip =>
        obtain ⟨dbr, vs, tr⟩ := trip
        simp only [hrec] at h
        injection h with h
        injection h with hA h
        injection h with hB hC
        subst hA
        subst hB
        subst hC
        obtain ⟨hOI, hOrd, hProd, hWS, hPr, hQt, hTot⟩ := ih _ oid dbr vs tr hrec
        have hpe : priceOf { db with
            orderItems := db.orderItems ++
              [{ id := db.nextItemId, orderId := oid, productId := i.productId,
                 quantity := i.quantity }],
            nextItemId := db.nextItemId + 1 } = priceOf db :=
          priceOf_products_eq _ db rfl
        refine ⟨?_, hOrd, hProd, hWS, ?_, ?_, ?_⟩
        · rw [hOI]
          show (db.orderItems ++
              [{ id := db.nextItemId, orderId := oid, productId := i.productId,
                 quantity := i.quantity }]) ++ insertedRows (db.nextItemId + 1) oid rest
            = db.orderItems ++ insertedRows db.nextItemId oid (i :: rest)
          rw [List.append_assoc, List.singleton_append]
          simp only [insertedRows]
        · simp only [List.map]
          rw [hPr, hpe]
          have hpp : priceOf db i.productId = p.price := by
            unfold priceOf
            rw [hp]
          rw [hpp]
        · simp only [List.map]
          rw [hQt]
        · simp only [itemsTotal]
          have hte := itemsTotal_products_eq { db with
              orderItems := db.orderItems ++
                [{ id := db.nextItemId, orderId := oid, productId := i.productId,
                   quantity := i.quantity }],
              nextItemId := db.nextItemId + 1 } db rfl rest
          rw [hTot, hte]
          have hpp : priceOf db i.productId = p.price := by
            unfold priceOf
            rw [hp]
          rw [hpp]

theorem insertItemsSimple_ok_effects :
    ∀ (items : List CreateOrderItemRequest) (db : DB) (orderId : Nat)
      (db2 : DB) (views : List OrderItemView) (total : Rat),
      insertItemsSimple db orderId items = .ok (db2, views, total) →
      db2.orderItems = db.orderItems ++ insertedRows db.nextItemId orderId items
      ∧ db2.orders = db.orders ∧ db2.products = db.products
      ∧ db2.warehouseStocks = db.warehouseStocks
      ∧ views.map (fun v => v.price) = items.map (fun i => priceOf db i.productId)
      ∧ views.map (fun v => v.quantity) = items.map (fun i => i.quantity)
      ∧ total = itemsTotal db items := by
  intro items
  induction items with
  | nil =>
    intro db oid db2 views total h
    simp only [insertItemsSimple] at h
    injection h with h
    injection h with hA h
    injection h with hB hC
    subst hA
    subst hB
    subst hC
    exact ⟨(List.append_nil db.orderItems).symm, rfl, rfl, rfl, rfl, rfl, rfl⟩
  | cons i rest ih =>
    intro db oid db2 views total h
    simp only [insertItemsSimple] at h
    cases hp : findProduct db i.productId with
    | none => simp [hp] at h
    | some p =>
      simp only [hp] at h
      by_cases hstock : p.stock < i.quantity
      · rw [if_pos hstock] at h
        exact Except.noConfusion h
      · rw [if_neg hstock] at h
        cases hrec : insertItemsSimple { db with
            orderItems := db.orderItems ++
              [{ id := db.nextItemId, orderId := oid, productId := i.productId,
                 quantity := i.quantity }],
            nextItemId := db.nextItemId + 1 } oid rest with
        | error e =>
          simp only [hrec] at h
          exact Except.noConfusion h
        | ok trip =>
          obtain ⟨dbr, vs, tr⟩ := trip
          simp only [hrec] at h
          injection h with h
          injection h with hA h
          injection h with hB hC
          subst hA
          subst hB
          subst hC
          obtain ⟨hOI, hOrd, hProd, hWS, hPr, hQt, hTot⟩ := ih _ oid dbr vs tr hrec
          have hpe : priceOf { db with
              orderItems := db.orderItems ++
                [{ id := db.nextItemId, orderId := oid, productId := i.productId,
                   quantity := i.quantity }],
              nextItemId := db.nextItemId + 1 } = priceOf db :=
            priceOf_products_eq _ db rfl
          refine ⟨?_, hOrd, hProd, hWS, ?_, ?_, ?_⟩
          · rw [hOI]
            show (db.orderItems ++
                [{ id := db.nextItemId, orderId := oid, productId := i.productId,
                   quantity := i.quantity }]) ++ insertedRows (db.nextItemId + 1) oid rest
              = db.orderItems ++ insertedRows db.nextItemId oid (i :: rest)
            rw [List.append_assoc, List.singleton_append]
            simp only [insertedRows]
          · simp only [List.map]
            rw [hPr, hpe]
            have hpp : priceOf db i.productId = p.price := by
              unfold priceOf
              rw [hp]
            rw [hpp]
          · simp only [List.map]
            rw [hQt]
          · simp only [itemsTotal]
            have hte := itemsTotal_products_eq { db with
                orderItems := db.orderItems ++
                  [{ id := db.nextItemId, orderId := oid, productId := i.productId,
                     quantity := i.quantity }],
                nextItemId := db.nextItemId + 1 } db rfl rest
            rw [hTot, hte]
            have hpp : priceOf db i.productId = p.price := by
              unfold priceOf
              rw [hp]
            rw [hpp]

/-- Claim C6, amended: both `CreateOrder` variants compute the returned
`total_amount` as `Σ quantity_i × current price_i`, return in-memory items
carrying the price snapshot, and persist the order and all items in one
transaction (on any failure the state is unchanged — no partial orders), with
stock untouched.  The price snapshot, however, lives only in the returned
objects: the persisted `order_items` rows carry just (id, order_id,
product_id, quantity).  The fresh-id hypothesis is the serial-column
invariant that no existing order already uses the next id. -/
theorem createOrder_total_snapshot_atomic :
    (∀ (db : DB) (userId : Nat) (items : List CreateOrderItemRequest)
        (owi : OrderWithItems) (db' : DB),
        (∀ o ∈ db.orders, o.id ≠ db.nextOrderId) →
        createOrder db userId items = .ok (owi, db') →
        owi.order.totalAmount = itemsTotal db items
        ∧ owi.items.map (fun v => v.price) = items.map (fun i => priceOf db i.productId)
        ∧ owi.items.map (fun v => v.quantity) = items.map (fun i => i.quantity)
        ∧ db'.orders = db.orders ++
            [{ id := db.nextOrderId, userId := userId,
               totalAmount := itemsTotal db items, status := "pending" }]
        ∧ db'.orderItems = db.orderItems ++ insertedRows db.nextItemId db.nextOrderId items
        ∧ db'.products = db.products
        ∧ db'.warehouseStocks = db.warehouseStocks)
    ∧ (∀ (db : DB) (userId : Nat) (items : List CreateOrderItemRequest)
        (owi : OrderWithItems) (db' : DB),
        (∀ o ∈ db.orders, o.id ≠ db.nextOrderId) →
        createOrderSimple db userId items = .ok (owi, db') →
        owi.order.totalAmount = itemsTotal db items
        ∧ owi.items.map (fun v => v.price) = items.map (fun i => priceOf db i.productId)
        ∧ owi.items.map (fun v => v.quantity) = items.map (fun i => i.quantity)
        ∧ db'.orders = db.orders ++
            [{ id := db.nextOrderId, userId := userId,
               totalAmount := itemsTotal db items, status := "pending" }]
        ∧ db'.orderItems = db.orderItems ++ insertedRows db.nextItemId db.nextOrderId items
        ∧ db'.products = db.products
        ∧ db'.warehouseStocks = db.warehouseStocks) := by
  constructor
  · intro db uid items owi db' hfresh h
    simp only [createOrder] at h
    cases hpre : precheckItems db items with
    | error e =>
      rw [hpre] at h
      exact Except.noConfusion h
    | ok u =>
      cases u
      simp only [hpre] at h
      cases hins : insertItems { db with
          orders := db.orders ++
            [{ id := db.nextOrderId, userId := uid, totalAmount := 0,
               status := defaultOrderStatus }],
          nextOrderId := db.nextOrderId + 1 } db.nextOrderId items with
      | error e =>
        simp only [hins] at h
        exact Except.noConfusion h
      | ok trip =>
        obtain ⟨db2, views, total⟩ := trip
        simp only [hins] at h
        injection h with h
        injection h with hOwi hDb
        subst hOwi
        subst hDb
        obtain ⟨hOI, hOrd, hProd, hWS, hPr, hQt, hTot⟩ :=
          insertItems_ok_effects items _ db.nextOrderId db2 views total hins
        have hpe := priceOf_products_eq { db with
            orders := db.orders ++
              [{ id := db.nextOrderId, userId := uid, totalAmount := 0,
                 status := defaultOrderStatus }],
            nextOrderId := db.nextOrderId + 1 } db rfl
        have hte := itemsTotal_products_eq { db with
            orders := db.orders ++
              [{ id := db.nextOrderId, userId := uid, totalAmount := 0,
                 status := defaultOrderStatus }],
            nextOrderId := db.nextOrderId + 1 } db rfl items
        have hmap1 : db.orders.map (fun o =>
            if o.id == db.nextOrderId then { o with totalAmount := total } else o)
              = db.orders := by
          have hfun : ∀ o ∈ db.orders,
              (if o.id == db.nextOrderId then { o with totalAmount := total } else o) = o := by
            intro o ho
            rw [if_neg (fun hT => hfresh o ho (beq_iff_eq.mp hT))]
          rw [List.map_congr_left hfun]
          exact List.map_id' db.orders
        refine ⟨?_, ?_, ?_, ?_, ?_, ?_, ?_⟩
        · show total = itemsTotal db items
          rw [hTot, hte]
        · show views.map (fun v => v.price) = items.map (fun i => priceOf db i.productId)
          rw [hPr, hpe]
        · exact hQt
        · show db2.orders.map (fun o =>
              if o.id == db.nextOrderId then { o with totalAmount := total } else o)
            = db.orders ++ [{ id := db.nextOrderId, userId := uid,
                               totalAmount := itemsTotal db items, status := "pending" }]
          rw [hOrd]
          show (db.orders ++
              [({ id := db.nextOrderId, userId := uid, totalAmount := 0,
                  status := defaultOrderStatus } : OrderRow)]).map (fun o =>
                if o.id == db.nextOrderId then { o with totalAmount := total } else o)
            = db.orders ++ [{ id := db.nextOrderId, userId := uid,
                               totalAmount := itemsTotal db items, status := "pending" }]
          rw [List.map_append, hmap1]
          simp only [List.map]
          rw [if_pos (beq_iff_eq.mpr rfl :
            (({ id := db.nextOrderId, userId := uid, totalAmount := (0 : Rat),
                status := defaultOrderStatus } : OrderRow).id == db.nextOrderId) = true)]
          rw [hTot, hte]
          rfl
        · show db2.orderItems
            = db.orderItems ++ insertedRows db.nextItemId db.nextOrderId items
          rw [hOI]
        · show db2.products = db.products
          rw [hProd]
        · show db2.warehouseStocks = db.warehouseStocks
          rw [hWS]
  · intro db uid items owi db' hfresh h
    simp only [createOrderSimple] at h
    cases hins : insertItemsSimple { db with
        orders := db.orders ++
          [{ id := db.nextOrderId, userId := uid, totalAmount := 0,
             status := defaultOrderStatus }],
        nextOrderId := db.nextOrderId + 1 } db.nextOrderId items with
    | error e =>
      simp only [hins] at h
      exact Except.noConfusion h
    | ok trip =>
      obtain ⟨db2, views, total⟩ := trip
      simp only [hins] at h
      injection h with h
      injection h with hOwi hDb
      subst hOwi
      subst hDb
      obtain ⟨hOI, hOrd, hProd, hWS, hPr, hQt, hTot⟩ :=
        insertItemsSimple_ok_effects items _ db.nextOrderId db2 views total hins
      have hpe := priceOf_products_eq { db with
          orders := db.orders ++
            [{ id := db.nextOrderId, userId := uid, totalAmount := 0,
               status := defaultOrderStatus }],
          nextOrderId := db.nextOrderId + 1 } db rfl
      have hte := itemsTotal_products_eq { db with
          orders := db.orders ++
            [{ id := db.nextOrderId, userId := uid, totalAmount := 0,
               status := defaultOrderStatus }],
          nextOrderId := db.nextOrderId + 1 } db rfl items
      have hmap1 : db.orders.map (fun o =>
          if o.id == db.nextOrderId then { o with totalAmount := total } else o)
            = db.orders := by
        have hfun : ∀ o ∈ db.orders,
            (if o.id == db.nextOrderId then { o with totalAmount := total } else o) = o := by
          intro o ho
          rw [if_neg (fun hT => hfresh o ho (beq_iff_eq.mp hT))]
        rw [List.map_congr_left hfun]
        exact List.map_id' db.orders
      refine ⟨?_, ?_, ?_, ?_, ?_, ?_, ?_⟩
      · show total = itemsTotal db items
        rw [hTot, hte]
      · show views.map (fun v => v.price) = items.map (fun i => priceOf db i.productId)
        rw [hPr, hpe]
      · exact hQt
      · show db2.orders.map (fun o =>
            if o.id == db.nextOrderId then { o with totalAmount := total } else o)
          = db.orders ++ [{ id := db.nextOrderId, userId := uid,
                             totalAmount := itemsTotal db items, status := "pending" }]
        rw [hOrd]
        show (db.orders ++
            [({ id := db.nextOrderId, userId := uid, totalAmount := 0,
                status := defaultOrderStatus } : OrderRow)]).map (fun o =>
              if o.id == db.nextOrderId then { o with totalAmount := total } else o)
          = db.orders ++ [{ id := db.nextOrderId, userId := uid,
                             totalAmount := itemsTotal db items, status := "pending" }]
        rw [List.map_append, hmap1]
        simp only [List.map]
        rw [if_pos (beq_iff_eq.mpr rfl :
          (({ id := db.nextOrderId, userId := uid, totalAmount := (0 : Rat),
              status := defaultOrderStatus } : OrderRow).id == db.nextOrderId) = true)]
        rw [hTot, hte]
        rfl
      · show db2.orderItems
          = db.orderItems ++ insertedRows db.nextItemId db.nextOrderId items
        rw [hOI]
      · show db2.products = db.products
        rw [hProd]
      · show db2.warehouseStocks = db.warehouseStocks
        rw [hWS]

/-- Witness for C6: the amended statement evaluated on `dbS6` with the
2-unit request: both variants succeed, compute the total symbolically and
persist the priceless item row. -/
theorem createOrder_total_snapshot_atomic_witness :
    (∀ o ∈ dbS6.orders, o.id ≠ dbS6.nextOrderId)
    ∧ owiS6.order.totalAmount = itemsTotal dbS6 itemsS6
    ∧ owiS6.items.map (fun v => v.price) = itemsS6.map (fun i => priceOf dbS6 i.productId)
    ∧ dbS6ins.orderItems
        = dbS6.orderItems ++ insertedRows dbS6.nextItemId dbS6.nextOrderId itemsS6
    ∧ dbS6ins.products = dbS6.products :=
  ⟨by decide,
   (createOrder_total_snapshot_atomic.1 dbS6 1 itemsS6 owiS6 dbS6ins (by decide) rfl).1,
   (createOrder_total_snapshot_atomic.1 dbS6 1 itemsS6 owiS6 dbS6ins (by decide) rfl).2.1,
   (createOrder_total_snapshot_atomic.2 dbS6 1 itemsS6 owiS6 dbS6ins (by decide)
      rfl).2.2.2.2.1,
   (createOrder_total_snapshot_atomic.2 dbS6 1 itemsS6 owiS6 dbS6ins (by decide)
      rfl).2.2.2.2.2.1⟩

end OrderApp
